import Mathlib

/-!
Verification development for the dynamic query-construction engine of
`label_studio/data_manager/managers.py`.

The engine is shallowly embedded: a queryset is a `List Task`, Django `Q`
objects become boolean predicates over `Task`, and the in-place mutation of
filter items performed by `apply_filters` / `cast_value` is made observable
by threading the (possibly rewritten) filter items through the result.
Fallible code (value coercion, index errors, registry lookups) returns
`Except String`.  Machine floats that the source produces via Python
`float()` are modelled as exact rationals; the parse-success/failure
behaviour is what the verified properties depend on.
-/

namespace DataManager

/-! ### String utilities (modelling Python `str` operations) -/

/-- Worker of `replaceList`, structurally recursive on a fuel that bounds
the input length (so that it evaluates inside the kernel). -/
def replaceListGo (pat rep : List Char) : Nat → List Char → List Char
  | _, [] => []
  | 0, s => s
  | fuel + 1, c :: cs =>
    if pat ≠ [] ∧ pat.isPrefixOf (c :: cs) then
      rep ++ replaceListGo pat rep fuel (cs.drop (pat.length - 1))
    else
      c :: replaceListGo pat rep fuel cs

/-- Replace every occurrence of `pat` in a character list, as Python
`str.replace` does, scanning left to right.  An empty pattern leaves the
input unchanged (the source never replaces an empty pattern). -/
def replaceList (pat rep : List Char) (s : List Char) : List Char :=
  replaceListGo pat rep s.length s

/-- Python `s.replace(pat, rep)` (all occurrences). -/
def strReplace (s pat rep : String) : String :=
  ⟨replaceList pat.data rep.data s.data⟩

/-- Python `s.replace(pat, rep, 1)` (first occurrence only). -/
def replaceFirstList (pat rep : List Char) : List Char → List Char
  | [] => []
  | c :: cs =>
    if pat ≠ [] ∧ pat.isPrefixOf (c :: cs) then
      rep ++ (c :: cs).drop pat.length
    else
      c :: replaceFirstList pat rep cs

def strReplaceFirst (s pat rep : String) : String :=
  ⟨replaceFirstList pat.data rep.data s.data⟩

/-- Python `pat in s` (substring containment). -/
def isInfixList (pat : List Char) : List Char → Bool
  | [] => pat.isEmpty
  | c :: cs => pat.isPrefixOf (c :: cs) || isInfixList pat cs

def strContains (s pat : String) : Bool :=
  isInfixList pat.data s.data

/-- Suffix test used to model how Django splits a lookup suffix off a
keyword-argument name. -/
def endsWithL (s suf : String) : Bool :=
  decide (suf.data.length ≤ s.data.length) &&
    (s.data.drop (s.data.length - suf.data.length) == suf.data)

def dropSuffixL (s suf : String) : String :=
  ⟨s.data.take (s.data.length - suf.data.length)⟩

def strToLower (s : String) : String := ⟨s.data.map Char.toLower⟩

/-- Python `s.startswith(pre)` (character-list based so that it evaluates
inside the kernel). -/
def strStartsWith (s pre : String) : Bool := pre.data.isPrefixOf s.data

/-- Drop the first `n` characters. -/
def strDrop (s : String) (n : Nat) : String := ⟨s.data.drop n⟩

def isSpaceChar (c : Char) : Bool := c = ' ' ∨ c = '\t' ∨ c = '\n' ∨ c = '\r'

/-- Python `s.strip()` on ASCII whitespace. -/
def strTrim (s : String) : String :=
  ⟨((s.data.dropWhile isSpaceChar).reverse.dropWhile isSpaceChar).reverse⟩

/-! ### Datetime representation (modelling Python `datetime`) -/

/-- A parsed timestamp, the result of `datetime.strptime` with the fixed
format `%Y-%m-%dT%H:%M:%S.%fZ`. -/
structure DateTimeRep where
  year : Nat
  month : Nat
  day : Nat
  hour : Nat
  minute : Nat
  second : Nat
  microsecond : Nat
deriving DecidableEq, Repr

/-- Injective monotone encoding of a timestamp, used for comparisons. -/
def dtKey (d : DateTimeRep) : Nat :=
  ((((d.year * 13 + d.month) * 32 + d.day) * 24 + d.hour) * 60 + d.minute)
      * 62 * 1000000 + d.second * 1000000 + d.microsecond

def digitsToNat (ds : List Char) : Nat :=
  ds.foldl (fun a c => a * 10 + (c.toNat - 48)) 0

/-- `n` digits exactly, as `strptime` matches fixed-width directives. -/
def takeNDigits (n : Nat) (cs : List Char) : Option (Nat × List Char) :=
  let ds := cs.take n
  if ds.length = n ∧ ds.all Char.isDigit then some (digitsToNat ds, cs.drop n)
  else none

/-- One or two digits whose value lies in `lo..hi`, two digits preferred,
as the `strptime` directive regexps behave. -/
def takeBoundedDigits (lo hi : Nat) (cs : List Char) : Option (Nat × List Char) :=
  match cs with
  | a :: b :: r =>
    if a.isDigit ∧ b.isDigit ∧ lo ≤ digitsToNat [a, b] ∧ digitsToNat [a, b] ≤ hi then
      some (digitsToNat [a, b], r)
    else if a.isDigit ∧ lo ≤ digitsToNat [a] ∧ digitsToNat [a] ≤ hi then
      some (digitsToNat [a], b :: r)
    else none
  | [a] =>
    if a.isDigit ∧ lo ≤ digitsToNat [a] ∧ digitsToNat [a] ≤ hi then
      some (digitsToNat [a], [])
    else none
  | [] => none

def expectChar (c : Char) : List Char → Option (List Char)
  | x :: r => if x = c then some r else none
  | [] => none

/-- The fixed timestamp format of the engine. -/
def DATETIME_FORMAT : String := "%Y-%m-%dT%H:%M:%S.%fZ"

/-- Modelled from the spec: `datetime.strptime(value, '%Y-%m-%dT%H:%M:%S.%fZ')`
of the Python standard library, which is outside this repository.  Parses a
fixed timestamp format `YYYY-MM-DDTHH:MM:SS.ffffffZ` (the fraction carries one
to six digits and is padded to microseconds) and fails on any mismatch. -/
def strptimeZ (s : String) : Option DateTimeRep := do
  let cs := s.data
  let (y, cs) ← takeNDigits 4 cs
  let cs ← expectChar '-' cs
  let (mo, cs) ← takeBoundedDigits 1 12 cs
  let cs ← expectChar '-' cs
  let (d, cs) ← takeBoundedDigits 1 31 cs
  let cs ← expectChar 'T' cs
  let (h, cs) ← takeBoundedDigits 0 23 cs
  let cs ← expectChar ':' cs
  let (mi, cs) ← takeBoundedDigits 0 59 cs
  let cs ← expectChar ':' cs
  let (sec, cs) ← takeBoundedDigits 0 61 cs
  let cs ← expectChar '.' cs
  let fd := cs.takeWhile Char.isDigit
  let cs := cs.dropWhile Char.isDigit
  if fd.length = 0 ∨ 6 < fd.length then none
  else do
    let cs ← expectChar 'Z' cs
    if cs = [] then
      some ⟨y, mo, d, h, mi, sec, digitsToNat fd * 10 ^ (6 - fd.length)⟩
    else none

/-! ### Values -/

/-- A Python value as it can occur in a filter item or in a stored column:
`null` models both SQL NULL and Python `None`; `range` models the
`{min, max}` pair accepted by the `in` / `not_in` operators. -/
inductive Val where
  | null : Val
  | bool : Bool → Val
  | int : Int → Val
  | num : Rat → Val
  | str : String → Val
  | dt : DateTimeRep → Val
  | range : Val → Val → Val
deriving DecidableEq, Repr

/-- Python truthiness of a value. -/
def valTruthy : Val → Bool
  | .null => false
  | .bool b => b
  | .int n => n ≠ 0
  | .num q => q ≠ 0
  | .str s => s ≠ ""
  | .dt _ => true
  | .range _ _ => true

/-- Modelled from the spec: `cast_bool_from_str` of
`label_studio.core.utils.params` (outside this file).  A string is coerced
case-insensitively, the accepted true set being "1" / "true" / "yes";
every other string coerces to false.  A non-string value is returned
unchanged. -/
def cast_bool_from_str (v : Val) : Val :=
  match v with
  | .str s =>
    .bool (strToLower s = "1" ∨ strToLower s = "true" ∨ strToLower s = "yes")
  | v => v

/-- Truthiness of `cast_bool_from_str` applied to a value; this is how the
source uses it inside conditions. -/
def castBoolTruthy (v : Val) : Bool := valTruthy (cast_bool_from_str v)

/-- Modelled from the spec: Python `float()` on decimal notation, sign and
exponent included.  Values outside the modelled notation (for instance the
textual infinities) do not occur in the verified scenarios. -/
def pyFloatOfStr (s : String) : Option Rat :=
  let cs := (strTrim s).data
  let (neg, cs) :=
    match cs with
    | '+' :: r => (false, r)
    | '-' :: r => (true, r)
    | r => (false, r)
  let ip := cs.takeWhile Char.isDigit
  let cs1 := cs.dropWhile Char.isDigit
  let (fp, cs2) :=
    match cs1 with
    | '.' :: r => (r.takeWhile Char.isDigit, r.dropWhile Char.isDigit)
    | r => (([] : List Char), r)
  if ip = [] ∧ fp = [] then none
  else
    let mnum : Nat := digitsToNat ip * 10 ^ fp.length + digitsToNat fp
    let mden : Nat := 10 ^ fp.length
    let mk : Nat → Nat → Rat := fun n d =>
      if neg then mkRat (-(n : Int)) d else mkRat (n : Int) d
    match cs2 with
    | [] => some (mk mnum mden)
    | e :: r =>
      if e = 'e' ∨ e = 'E' then
        let (esgn, r1) :=
          match r with
          | '+' :: r2 => (true, r2)
          | '-' :: r2 => (false, r2)
          | r2 => (true, r2)
        let ed := r1.takeWhile Char.isDigit
        let r2 := r1.dropWhile Char.isDigit
        if ed = [] ∨ r2 ≠ [] then none
        else
          some (if esgn then mk (mnum * 10 ^ digitsToNat ed) mden
                else mk mnum (mden * 10 ^ digitsToNat ed))
      else none

/-- Python `float(value)`: numbers pass through, strings are parsed, other
values raise a type error. -/
def pyFloat : Val → Except String Rat
  | .str s =>
    match pyFloatOfStr s with
    | some q => .ok q
    | none => .error ("ValueError: could not convert string to float: " ++ s)
  | .int n => .ok (n : Rat)
  | .num q => .ok q
  | .bool b => .ok (if b then 1 else 0)
  | .null => .error "TypeError: float() argument must be a string or a number, not NoneType"
  | .dt _ => .error "TypeError: float() argument must be a string or a number, not datetime"
  | .range _ _ => .error "TypeError: float() argument must be a string or a number"

/-- `datetime.strptime(value, DATETIME_FORMAT)`: strings are parsed against
the fixed format, other values raise a type error. -/
def pyStrptime : Val → Except String DateTimeRep
  | .str s =>
    match strptimeZ s with
    | some d => .ok d
    | none => .error ("ValueError: time data " ++ s ++ " does not match format " ++ DATETIME_FORMAT)
  | _ => .error "TypeError: strptime() argument 1 must be str"

/-- Python `str(value)`, to the extent the engine prints values (regex
validation and the diagnostic log).  The decimal rendering of rationals is
a stand-in for the float repr; the verified scenarios only print strings. -/
def pyStr : Val → String
  | .str s => s
  | .int n => toString n
  | .num q => toString q
  | .bool b => if b then "True" else "False"
  | .null => "None"
  | .dt _ => "datetime"
  | .range _ _ => "range"

/-! ### Tasks -/

/-- Modelled from the spec: the project scope object, carrying the
per-project flag that collapses all nested JSON fields into the one
"undefined" bucket. -/
structure Project where
  id : Int
  only_undefined_field : Bool
deriving DecidableEq, Repr

/-- A task record.  The three counter columns are materialized on every
task, matching the unconditional base annotation of
`PreparedTaskManager.get_queryset`; computed/annotated columns used by
filters are modelled as already present in `fields`; `data` is the nested
JSON payload (an absent key models a missing JSON key, a `.null` value a
stored JSON null). -/
structure Task where
  id : Int
  project : Project
  total_annotations : Int
  cancelled_annotations : Int
  total_predictions : Int
  fields : List (String × Val)
  data : List (String × Val)
deriving DecidableEq, Repr

/-- The fixed name of the undefined-bucket JSON key
(`settings.DATA_UNDEFINED_NAME`, outside this file). -/
def DATA_UNDEFINED_NAME : String := "$undefined$"

/-- Column access on a task: `none` models an unset column, `some .null` a
stored NULL.  Names prefixed `data__` address the JSON payload. -/
def fieldGet (t : Task) (name : String) : Option Val :=
  if name = "id" then some (.int t.id)
  else if name = "project" then some (.int t.project.id)
  else if name = "total_annotations" then some (.int t.total_annotations)
  else if name = "cancelled_annotations" then some (.int t.cancelled_annotations)
  else if name = "total_predictions" then some (.int t.total_predictions)
  else if strStartsWith name "data__" then (t.data).lookup (strDrop name 6)
  else (t.fields).lookup name

/-- `KeyTextTransform(key, 'data')`: the JSON value under `key` rendered as
text, NULL when the key is missing or holds a JSON null. -/
def dataKeyText (t : Task) (key : String) : Option String :=
  match (t.data).lookup key with
  | none => none
  | some .null => none
  | some (.str s) => some s
  | some (.int n) => some (toString n)
  | some (.num q) => some (toString q)
  | some (.bool b) => some (if b then "true" else "false")
  | some (.dt _) => some "datetime"
  | some (.range _ _) => some "range"

/-! ### Regex validation (modelling `re.compile` of the host regex library) -/

/-- Scanner state for the regex validity check: `t0` nothing to repeat,
`t1` after an atom, `t2` after a quantifier, `t3` after a lazy modifier,
`t4` just after an opening group, `c0` just after `[`, `c1` after `[^`,
`c2` inside a character class body. -/
inductive RxSt where
  | t0 | t1 | t2 | t3 | t4 | c0 | c1 | c2
deriving DecidableEq, Repr

/-- Modelled from the spec: validity of a pattern under the target regex
dialect (`re.compile` succeeding), which lives outside this repository.
The modelled dialect covers literals, escapes, character classes, groups,
alternation and quantifiers; it rejects the malformed patterns the spec
names (unterminated classes or groups, dangling quantifiers, trailing
escapes). -/
def rxGo : List Char → Nat → RxSt → Bool
  | [], d, st =>
    (st = .t0 ∨ st = .t1 ∨ st = .t2 ∨ st = .t3 ∨ st = .t4) ∧ d = 0
  | ch :: rest, d, st =>
    if st = .c0 then
      if ch = '^' then rxGo rest d .c1
      else if ch = '\\' then
        match rest with
        | [] => false
        | _ :: r => rxGo r d .c2
      else rxGo rest d .c2
    else if st = .c1 then
      if ch = '\\' then
        match rest with
        | [] => false
        | _ :: r => rxGo r d .c2
      else rxGo rest d .c2
    else if st = .c2 then
      if ch = ']' then rxGo rest d .t1
      else if ch = '\\' then
        match rest with
        | [] => false
        | _ :: r => rxGo r d .c2
      else rxGo rest d .c2
    else
      if ch = '\\' then
        match rest with
        | [] => false
        | _ :: r => rxGo r d .t1
      else if ch = '[' then rxGo rest d .c0
      else if ch = '(' then rxGo rest (d + 1) .t4
      else if ch = ')' then
        match d with
        | 0 => false
        | d' + 1 => rxGo rest d' .t1
      else if ch = '|' then rxGo rest d .t0
      else if ch = '*' ∨ ch = '+' then
        if st = .t1 then rxGo rest d .t2 else false
      else if ch = '?' then
        if st = .t1 then rxGo rest d .t2
        else if st = .t2 then rxGo rest d .t3
        else if st = .t4 then rxGo rest d .t0
        else false
      else rxGo rest d .t1

/-- `re.compile(pattern)` succeeds. -/
def regexCompileOk (pattern : String) : Bool :=
  rxGo pattern.data 0 .t0

/-- Modelled from the spec: the storage-engine regex match is an external
capability; it is modelled as literal-substring semantics, which agrees
with POSIX matching on literal patterns.  No verified property depends on
match semantics, only on the compile-failure short-circuit. -/
def dbRegexMatch (pattern target : String) : Bool :=
  strContains target pattern

/-! ### Filter data model (modelled from the spec, §3: the
`data_manager.prepare_params` structures are outside this file) -/

/-- Modelled from the spec: the AND/OR conjunction marker applied uniformly
to all filter items. -/
inductive ConjunctionEnum where
  | AND | OR
deriving DecidableEq, Repr

/-- Modelled from the spec: one filter item
`{filter, operator, type, value}`. -/
structure FilterItem where
  filter : String
  operator : String
  type : String
  value : Val
deriving DecidableEq, Repr

/-- Modelled from the spec: a conjunction marker plus an ordered sequence
of filter items. -/
structure Filters where
  conjunction : ConjunctionEnum
  items : List FilterItem
deriving DecidableEq, Repr

/-- Modelled from the spec: the selection set
`{all, included, excluded}`. -/
structure SelectedItems where
  all : Bool
  included : List Int
  excluded : List Int
deriving DecidableEq, Repr

/-- Modelled from the spec: the input contract of one query build. -/
structure PrepareParams where
  project : Option Int
  filters : Option Filters
  ordering : List String
  selectedItems : Option SelectedItems
deriving DecidableEq, Repr

/-! ### Operator registry and field resolver (from the source) -/

/-- The fixed operator-to-lookup-suffix table of `managers.py`. -/
def operators : List (String × String) :=
  [("equal", ""), ("not_equal", ""), ("less", "__lt"), ("greater", "__gt"),
   ("less_or_equal", "__lte"), ("greater_or_equal", "__gte"), ("in", ""),
   ("not_in", ""), ("empty", "__isnull"), ("contains", "__icontains"),
   ("not_contains", "__icontains"), ("regex", "__regex")]

/-- `operators.get(op, '')`. -/
def operatorsGet (op : String) : String :=
  (operators.lookup op).getD ""

/-- `preprocess_field_name` of the source: strip the routing namespace and
rewrite a nested JSON path, collapsing it to the undefined bucket when the
per-project flag is set. -/
def preprocess_field_name (raw_field_name : String) (only_undefined_field : Bool) : String :=
  let field_name := strReplace raw_field_name "filter:tasks:" ""
  if strStartsWith field_name "data." then
    if only_undefined_field then "data__" ++ DATA_UNDEFINED_NAME
    else strReplace field_name "data." "data__"
  else field_name

/-- `cast_value` of the source: coerce the raw value (or min/max pair) of a
filter item to its typed representation, propagating parse failures. -/
def cast_value (f : FilterItem) : Except String FilterItem :=
  match f.value with
  | .range mn mx =>
    if f.type = "Number" then
      match pyFloat mn, pyFloat mx with
      | .ok a, .ok b => .ok { f with value := .range (.num a) (.num b) }
      | .error e, _ => .error e
      | .ok _, .error e => .error e
    else if f.type = "Datetime" then
      match pyStrptime mn, pyStrptime mx with
      | .ok a, .ok b => .ok { f with value := .range (.dt a) (.dt b) }
      | .error e, _ => .error e
      | .ok _, .error e => .error e
    else .ok f
  | v =>
    if f.type = "Number" then
      match pyFloat v with
      | .ok q => .ok { f with value := .num q }
      | .error e => .error e
    else if f.type = "Datetime" then
      match pyStrptime v with
      | .ok d => .ok { f with value := .dt d }
      | .error e => .error e
    else if f.type = "Boolean" then .ok { f with value := cast_bool_from_str v }
    else .ok f

/-! ### `Q`-object semantics -/

/-- The lookup kinds Django parses off a keyword-argument name. -/
inductive Lookup where
  | exact | lt | gt | lte | gte | isnull | icontains | regexm
deriving DecidableEq, Repr

def lookupSuffixes : List (String × Lookup) :=
  [("__isnull", .isnull), ("__icontains", .icontains), ("__regex", .regexm),
   ("__lte", .lte), ("__gte", .gte), ("__lt", .lt), ("__gt", .gt)]

/-- Split a lookup suffix off a keyword-argument name, as Django does. -/
def splitLookup (key : String) : String × Lookup :=
  match lookupSuffixes.find? (fun p => endsWithL key p.1) with
  | some p => (dropSuffixL key p.1, p.2)
  | none => (key, .exact)

/-- Numeric view of a value (SQL compares booleans and numbers
numerically). -/
def valToRat? : Val → Option Rat
  | .int n => some (n : Rat)
  | .num q => some q
  | .bool b => some (if b then 1 else 0)
  | _ => none

/-- SQL equality of two non-NULL values; values of incomparable kinds never
compare equal. -/
def valEqB (a b : Val) : Bool :=
  match valToRat? a, valToRat? b with
  | some x, some y => x == y
  | _, _ =>
    match a, b with
    | .str s, .str u => s == u
    | .dt d, .dt e => d == e
    | _, _ => false

/-- SQL strict order on two non-NULL values. -/
def valLtB (a b : Val) : Bool :=
  match valToRat? a, valToRat? b with
  | some x, some y => decide (x < y)
  | _, _ =>
    match a, b with
    | .str s, .str u => decide (s < u)
    | .dt d, .dt e => decide (dtKey d < dtKey e)
    | _, _ => false

/-- SQL non-strict order on two non-NULL values. -/
def valLeB (a b : Val) : Bool :=
  valLtB a b || valEqB a b

/-- An annotation environment: computed columns the builder has added with
`queryset.annotate`, keyed by alias. -/
abbrev AnnEnv := List (String × (Task → Option Val))

def isNullOpt : Option Val → Bool
  | none => true
  | some .null => true
  | some _ => false

/-- Resolve a column name against the annotation environment first, then
the task columns, as Django resolves references on an annotated queryset. -/
def resolveField (anns : AnnEnv) (t : Task) (name : String) : Option Val :=
  match anns.lookup name with
  | some f => f t
  | none => fieldGet t name

/-- Evaluate one Django keyword argument `key=v` against a task: the lookup
suffix is split off the key and interpreted.  SQL three-valued logic
collapses to `false` on NULL operands, matching how a NULL row never
satisfies a comparison lookup. -/
def qEval (anns : AnnEnv) (key : String) (v : Val) (t : Task) : Bool :=
  let p := splitLookup key
  let fv := resolveField anns t p.1
  match p.2 with
  | .exact =>
    if v = .null then isNullOpt fv
    else
      match fv with
      | some w => valEqB w v
      | none => false
  | .isnull => isNullOpt fv == valTruthy v
  | .lt => match fv with | some w => if w = .null then false else valLtB w v | none => false
  | .gt => match fv with | some w => if w = .null then false else valLtB v w | none => false
  | .lte => match fv with | some w => if w = .null then false else valLeB w v | none => false
  | .gte => match fv with | some w => if w = .null then false else valLeB v w | none => false
  | .icontains =>
    match fv with
    | some (.str s) => strContains (strToLower s) (strToLower (pyStr v))
    | _ => false
  | .regexm =>
    match fv with
    | some (.str s) => dbRegexMatch (pyStr v) s
    | _ => false

/-- Combine one predicate into the running expression with the declared
conjunction, as `Q.add` does; an absent expression is the empty `Q()`. -/
def addQ (conj : ConjunctionEnum) (acc : Option (Task → Bool)) (q : Task → Bool) :
    Option (Task → Bool) :=
  some (match acc with
    | none => q
    | some p =>
      match conj with
      | .AND => fun t => p t && q t
      | .OR => fun t => p t || q t)

/-! ### The predicate-builder loop of `apply_filters` -/

/-- Mutable state of the loop body: annotation environment, running filter
expression, and the log entries emitted so far. -/
structure FState where
  anns : AnnEnv
  expr : Option (Task → Bool)
  logs : List String

/-- Result of processing one filter item: continue with the updated state
and the (possibly rewritten) item, short-circuit to the empty queryset, or
raise. -/
inductive StepRes where
  | proceed : FState → FilterItem → StepRes
  | stopEmpty : FState → FilterItem → StepRes
  | fail : String → StepRes

/-- The three built-in counter columns. -/
def counterFields (name : String) : Prop :=
  name = "total_predictions" ∨ name = "total_annotations" ∨ name = "cancelled_annotations"

instance (name : String) : Decidable (counterFields name) := by
  unfold counterFields; infer_instance

/-- The resolved column name of one filter item (source lines 148-152):
the preprocessed field path, renamed when it collides with the relationship
accessor `file_upload`. -/
def stepFieldName (ou : Bool) (f : FilterItem) : String :=
  let field_name := preprocess_field_name f.filter ou
  if field_name = "file_upload" then "file_upload_field" else field_name

/-- Whether the item needs the float-cast JSON annotation (line 155). -/
def stepAnnotate (ou : Bool) (f : FilterItem) : Prop :=
  f.type = "Number" ∧ strStartsWith (stepFieldName ou f) "data__" = true

instance (ou : Bool) (f : FilterItem) : Decidable (stepAnnotate ou f) := by
  unfold stepAnnotate
  infer_instance

def stepJsonField (ou : Bool) (f : FilterItem) : String :=
  strReplace (stepFieldName ou f) "data__" ""

def stepAnnName (ou : Bool) (f : FilterItem) : String :=
  "filter_" ++ strReplace (stepJsonField ou f) "$undefined$" "undefined"

/-- The float-cast annotation `Cast(KeyTextTransform(json_field, 'data'),
FloatField())` (lines 157-160): the JSON value as text, cast to a number
(NULL when missing or non-numeric). -/
def stepAnnFun (ou : Bool) (f : FilterItem) : Task → Option Val :=
  fun t => (dataKeyText t (stepJsonField ou f)).bind (fun s => (pyFloatOfStr s).map Val.num)

/-- The column the comparison targets (line 161-163). -/
def stepCleanFieldName (ou : Bool) (f : FilterItem) : String :=
  if stepAnnotate ou f then stepAnnName ou f else stepFieldName ou f

/-- The counter special case (lines 166-169): `empty` on one of the three
built-in counters is rewritten in place to an equality against 0. -/
def stepRewriteItem (ou : Bool) (f : FilterItem) : FilterItem :=
  if counterFields (stepCleanFieldName ou f) ∧ f.operator = "empty" then
    { f with operator := if castBoolTruthy f.value then "equal" else "not_equal",
             value := .int 0 }
  else f

/-- The disjunctive string-emptiness predicate (lines 174-181): empty
string OR null OR is-null when the coerced value is true, the conjunction
of the three negations otherwise. -/
def stringEmptyQ (anns : AnnEnv) (field_name : String) (v : Val) : Task → Bool :=
  if castBoolTruthy v then
    fun t => qEval anns field_name (.str "") t || qEval anns field_name .null t ||
      qEval anns (field_name ++ "__isnull") (.bool true) t
  else
    fun t => !(qEval anns field_name (.str "") t) && !(qEval anns field_name .null t) &&
      !(qEval anns (field_name ++ "__isnull") (.bool true) t)

/-- The inclusive between predicate of the `in` operator (lines 199-207). -/
def inRangeQ (anns : AnnEnv) (fq : String) (mn mx : Val) : Task → Bool :=
  fun t => qEval anns (fq ++ "__gte") mn t && qEval anns (fq ++ "__lte") mx t

/-- One iteration of the `apply_filters` loop (source lines 142-237). -/
def step (conj : ConjunctionEnum) (ou : Bool) (st : FState) (f : FilterItem) : StepRes :=
  if !(strStartsWith f.filter "filter:tasks:") || !(valTruthy f.value) then
    .proceed st f
  else
    let st1 : FState :=
      if stepAnnotate ou f then
        { st with anns := st.anns ++ [(stepAnnName ou f, stepAnnFun ou f)] }
      else st
    let f2 := stepRewriteItem ou f
    if (f2.type = "String" ∨ f2.type = "Unknown") ∧ f2.operator = "empty" then
      .proceed { st1 with
        expr := addQ conj st1.expr (stringEmptyQ st1.anns (stepFieldName ou f) f2.value) } f2
    else if f2.operator = "regex" ∧ regexCompileOk (pyStr f2.value) = false then
      .stopEmpty { st1 with
        logs := st1.logs ++ ["Incorrect regex for filter: " ++ pyStr f2.value] } f2
    else
      let fq := stepCleanFieldName ou f ++ operatorsGet f2.operator
      if f2.operator = "in" then
        match cast_value f2 with
        | .error e => .fail e
        | .ok f3 =>
          match f3.value with
          | .range mn mx =>
            .proceed { st1 with expr := addQ conj st1.expr (inRangeQ st1.anns fq mn mx) } f3
          | _ => .fail "AttributeError: value has no attribute min"
      else if f2.operator = "not_in" then
        match cast_value f2 with
        | .error e => .fail e
        | .ok f3 =>
          match f3.value with
          | .range mn mx =>
            .proceed { st1 with
              expr := addQ conj st1.expr (fun t => !(inRangeQ st1.anns fq mn mx t)) } f3
          | _ => .fail "AttributeError: value has no attribute min"
      else if f2.operator = "empty" then
        if castBoolTruthy f2.value then
          .proceed { st1 with
            expr := addQ conj st1.expr (fun t => qEval st1.anns fq (.bool true) t) } f2
        else
          .proceed { st1 with
            expr := addQ conj st1.expr (fun t => !(qEval st1.anns fq (.bool true) t)) } f2
      else if strStartsWith f2.operator "not_" then
        match cast_value f2 with
        | .error e => .fail e
        | .ok f3 =>
          .proceed { st1 with
            expr := addQ conj st1.expr (fun t => !(qEval st1.anns fq f3.value t)) } f3
      else
        match cast_value f2 with
        | .error e => .fail e
        | .ok f3 =>
          .proceed { st1 with
            expr := addQ conj st1.expr (fun t => qEval st1.anns fq f3.value t) } f3

/-- Outcome of the whole loop, the final item list kept apart from the
state so the in-place mutation of items stays observable. -/
inductive RunOut where
  | finished : FState → List FilterItem → RunOut
  | shortCircuit : FState → List FilterItem → RunOut
  | failed : String → RunOut

def runItems (conj : ConjunctionEnum) (ou : Bool) (st : FState) :
    List FilterItem → RunOut
  | [] => .finished st []
  | it :: rest =>
    match step conj ou st it with
    | .proceed st' it' =>
      match runItems conj ou st' rest with
      | .finished st'' its => .finished st'' (it' :: its)
      | .shortCircuit st'' its => .shortCircuit st'' (it' :: its)
      | .failed e => .failed e
    | .stopEmpty st' it' => .shortCircuit st' (it' :: rest)
    | .fail e => .failed e

/-- The one-time sample of the per-project flag from the first record of
the target set (source line 140). -/
def onlyUndefinedOf (queryset : List Task) : Bool :=
  match queryset with
  | [] => false
  | t :: _ => t.project.only_undefined_field

/-- Result of `apply_filters`: the surviving rows, the filter structure
after the call (observable because the source mutates items in place), and
the log entries emitted. -/
structure ApplyResult where
  rows : List Task
  filtersOut : Option Filters
  logs : List String
deriving DecidableEq, Repr

instance exceptDecEq {ε α : Type} [DecidableEq ε] [DecidableEq α] :
    DecidableEq (Except ε α) := fun a b =>
  match a, b with
  | .ok x, .ok y => if h : x = y then .isTrue (by simp [h]) else .isFalse (by simp [h])
  | .error e, .error f => if h : e = f then .isTrue (by simp [h]) else .isFalse (by simp [h])
  | .ok _, .error _ => .isFalse (by simp)
  | .error _, .ok _ => .isFalse (by simp)

/-- `apply_filters` of the source: build one combined predicate from the
filter items and apply it; an invalid regex short-circuits to the empty
queryset; coercion failures propagate as errors. -/
def apply_filters (queryset : List Task) (filters : Option Filters) :
    Except String ApplyResult :=
  match filters with
  | none => .ok ⟨queryset, none, []⟩
  | some fs =>
    match runItems fs.conjunction (onlyUndefinedOf queryset) ⟨[], none, []⟩ fs.items with
    | .failed e => .error e
    | .shortCircuit st its => .ok ⟨[], some ⟨fs.conjunction, its⟩, st.logs⟩
    | .finished st its =>
      .ok ⟨(match st.expr with
            | none => queryset
            | some p => queryset.filter p),
          some ⟨fs.conjunction, its⟩, st.logs ++ ["Apply filter"]⟩

/-! ### Ordering -/

def isWordChar (c : Char) : Bool := c.isAlphanum || c = '_'

/-- Worker of `reSubDataUndefined`, structurally recursive on a fuel that
bounds the input length. -/
def reSubDataGo : Nat → List Char → List Char
  | _, [] => []
  | 0, s => s
  | fuel + 1, c :: cs =>
    if ("data__".data).isPrefixOf (c :: cs) ∧ ((c :: cs).drop 6).takeWhile isWordChar ≠ [] then
      ("data__" ++ DATA_UNDEFINED_NAME).data ++
        reSubDataGo fuel (((c :: cs).drop 6).dropWhile isWordChar)
    else c :: reSubDataGo fuel cs

/-- Python `re.sub('data__\\w+', 'data__$undefined$', s)`: every maximal
occurrence of `data__` followed by at least one word character collapses to
the undefined bucket. -/
def reSubDataUndefined (s : List Char) : List Char :=
  reSubDataGo s.length s

/-- Rank of a value kind for sorting; integers and rationals share a rank
and compare numerically. -/
def valRank : Val → Nat
  | .null => 0
  | .bool _ => 1
  | .int _ => 2
  | .num _ => 2
  | .str _ => 3
  | .dt _ => 4
  | .range _ _ => 5

def valNumKey : Val → Rat
  | .int n => (n : Rat)
  | .num q => q
  | _ => 0

def valStrKey : Val → List Char
  | .str s => s.data
  | _ => []

def valAuxKey : Val → Nat
  | .bool b => if b then 1 else 0
  | .dt d => dtKey d
  | _ => 0

/-- Lexicographic sort key giving a total order on stored values. -/
def valSortKey (v : Val) : Lex (Nat × Lex (Rat × Lex (List Char × Nat))) :=
  toLex (valRank v, toLex (valNumKey v, toLex (valStrKey v, valAuxKey v)))

def valSortLe (a b : Val) : Bool := decide (valSortKey a ≤ valSortKey b)

/-- The comparison realized by `F(...).asc(nulls_last=True)` /
`.desc(nulls_last=True)`: records with a NULL sort key come last in either
direction. -/
def nullsLastLe (asc : Bool) (keyF : Task → Option Val) (a b : Task) : Bool :=
  match keyF a, keyF b with
  | none, none => true
  | none, some _ => false
  | some _, none => true
  | some x, some y => if asc then valSortLe x y else valSortLe y x

/-- `queryset.order_by(f)`: a stable sort realizing the comparison. -/
def orderBy (asc : Bool) (keyF : Task → Option Val) (qs : List Task) : List Task :=
  List.insertionSort (fun a b => nullsLastLe asc keyF a b = true) qs

/-- The sort key of a plain (non-JSON) column; a stored NULL sorts like a
missing value. -/
def sortKeyPlain (t : Task) (name : String) : Option Val :=
  match fieldGet t name with
  | some .null => none
  | x => x

/-- Direction and sort-key extraction of `apply_ordering` for a non-empty
ordering list (source lines 85-101): strip the `tasks:` namespace, read a
leading dash as descending, and resolve a nested JSON path to a text
extraction (collapsing to the undefined bucket under the sampled
per-project flag).  `none` models the index error on an empty field
name. -/
def orderingPlan (queryset : List Task) (o : String) : Option (Bool × (Task → Option Val)) :=
  let field_name := strReplace o "tasks:" ""
  match field_name.data with
  | [] => none
  | c :: _ =>
    let ascending := decide (c ≠ '-')
    let field_name := if c = '-' then strDrop field_name 1 else field_name
    if strContains field_name "data." then
      let field_name := strReplaceFirst field_name "." "__"
      let field_name :=
        if onlyUndefinedOf queryset then (⟨reSubDataUndefined field_name.data⟩ : String)
        else field_name
      let json_field := strReplace field_name "data__" ""
      some (ascending, fun t => (dataKeyText t json_field).map Val.str)
    else
      some (ascending, fun t => sortKeyPlain t field_name)

/-- `apply_ordering` of the source: honor the first ordering key with
nulls-last placement; an empty ordering list degrades to ascending order by
identity. -/
def apply_ordering (queryset : List Task) (ordering : List String) :
    Except String (List Task) :=
  match ordering with
  | o :: _ =>
    match orderingPlan queryset o with
    | none => .error "IndexError: string index out of range"
    | some p => .ok (orderBy p.1 p.2 queryset)
  | [] => .ok (orderBy true (fun t => some (.int t.id)) queryset)

/-! ### Query assembly and selection -/

/-- The selection stage of `TaskQuerySet.prepared` (source lines 260-271):
an include-list restricts, an exclude-list removes, and either branch runs
only when its id list is non-empty. -/
def selectionRestrict (si : Option SelectedItems) (rows : List Task) : List Task :=
  match si with
  | none => rows
  | some s =>
    if s.all = false ∧ s.included ≠ [] then
      rows.filter (fun t => s.included.contains t.id)
    else if s.all = true ∧ s.excluded ≠ [] then
      rows.filter (fun t => !(s.excluded.contains t.id))
    else rows

/-- The scope filter of `TaskQuerySet.prepared` (source lines 254-255). -/
def projectScope (queryset : List Task) (project : Option Int) : List Task :=
  match project with
  | none => queryset
  | some p => queryset.filter (fun t => t.project.id == p)

/-- `TaskQuerySet.prepared`: scope filter, then filters, then ordering,
then the selection restriction. -/
def TaskQuerySet.prepared (queryset : List Task) (prepare_params : PrepareParams) :
    Except String ApplyResult := do
  let queryset := projectScope queryset prepare_params.project
  let r ← apply_filters queryset prepare_params.filters
  let rows ← apply_ordering r.rows prepare_params.ordering
  .ok { r with rows := selectionRestrict prepare_params.selectedItems rows }

/-! ### Field-usage analysis and the computed-column registry -/

/-- Modelled from the spec: the attribute names of the native columns of
the Task model (`tasks/models.py`, outside this file), which the field-usage
analysis skips because they never need annotation. -/
def taskModelFieldAttnames : List String :=
  ["id", "data", "meta", "project_id", "created_at", "updated_at",
   "is_labeled", "overlap", "file_upload_id"]

/-- `get_fields_for_annotation` of the source: the ordering field plus
every filter item's field, de-duplicated, minus native model columns and
nested JSON fields. -/
def get_fields_for_annotation (prepare_params : PrepareParams) : List String :=
  let result :=
    (match prepare_params.ordering with
     | [] => []
     | o :: _ => [strReplace (strReplace o "tasks:" "") "-" ""]) ++
    (match prepare_params.filters with
     | none => []
     | some fs => fs.items.map (fun f => strReplace f.filter "filter:tasks:" ""))
  let result := result.dedup
  let skipped_fields := taskModelFieldAttnames ++ ["id"]
  let result := result.filter (fun f => !(skipped_fields.contains f))
  result.filter (fun f => !(strStartsWith f "data."))

/-- The initial keys of the process-wide computed-column registry
(`settings.DATA_MANAGER_ANNOTATIONS_MAP`). -/
def DATA_MANAGER_ANNOTATIONS_MAP : List String :=
  ["completed_at", "annotations_results", "predictions_results",
   "predictions_score", "annotators", "file_upload",
   "cancelled_annotations", "total_annotations", "total_predictions"]

/-- A built queryset together with the annotation activity that produced
it: the unconditional base counters and the registry annotators invoked. -/
structure QSBuild where
  rows : List Task
  alwaysAnnotated : List String
  invoked : List String
deriving DecidableEq, Repr

/-- Invoke the registry annotator of every requested field in order; an
unregistered name raises a lookup error.  Annotators are modelled as
row-preserving: their computed values are materialized on `Task`. -/
def invokeAnnotators : List String → Except String (List String)
  | [] => .ok []
  | f :: r =>
    if DATA_MANAGER_ANNOTATIONS_MAP.contains f then
      (invokeAnnotators r).map (fun l => f :: l)
    else .error ("KeyError: " ++ f)

/-- `PreparedTaskManager.get_queryset`: annotate the three base counters
unconditionally, then invoke the registry for each requested field. -/
def PreparedTaskManager.get_queryset (base : List Task)
    (fields_for_evaluation : Option (List String)) : Except String QSBuild :=
  let ffe := fields_for_evaluation.getD []
  (invokeAnnotators ffe).map (fun inv =>
    ⟨base, ["total_annotations", "cancelled_annotations", "total_predictions"], inv⟩)

/-- `PreparedTaskManager.all`: field-usage analysis, conditional
annotation, then the prepared queryset. -/
def PreparedTaskManager.all (base : List Task) (prepare_params : Option PrepareParams) :
    Except String (QSBuild × ApplyResult) :=
  match prepare_params with
  | none => (PreparedTaskManager.get_queryset base none).map (fun q => (q, ⟨base, none, []⟩))
  | some pp => do
    let q ← PreparedTaskManager.get_queryset base (some ( get_fields_for_annotation pp))
    let r ← TaskQuerySet.prepared q.rows pp
    .ok (q, r)

/-! ### Statement helpers and concrete scenarios -/

/-- An item the loop skips outright: falsy value or missing routing
namespace (source line 144). -/
def skippedItem (it : FilterItem) : Bool :=
  !(strStartsWith it.filter "filter:tasks:") || !(valTruthy it.value)

/-- How one loop iteration may transform a filter item: the field path and
the type are never touched, and an item the loop skips is left whole. -/
def itemPreserved (a b : FilterItem) : Prop :=
  b.filter = a.filter ∧ b.type = a.type ∧ (skippedItem a = true → b = a)

/-- A column name free of every lookup suffix, so that Django reads the
whole keyword-argument name as the column. -/
def plainColumn (name : String) : Bool :=
  lookupSuffixes.all (fun p => !(endsWithL name p.1))

def projA : Project := ⟨1, false⟩

/-- Three tasks with `total_annotations` 0, 1, 2 (the end-to-end scenario
of the spec). -/
def cTask0 : Task := ⟨1, projA, 0, 0, 0, [], []⟩

def cTask1 : Task := ⟨2, projA, 1, 0, 0, [], []⟩

def cTask2 : Task := ⟨3, projA, 2, 0, 0, [], []⟩

/-- Tasks whose string column `name` is empty, NULL, unset, and
non-empty. -/
def sTaskEmpty : Task := ⟨4, projA, 0, 0, 0, [("name", .str "")], []⟩

def sTaskNull : Task := ⟨5, projA, 0, 0, 0, [("name", .null)], []⟩

def sTaskUnset : Task := ⟨6, projA, 0, 0, 0, [], []⟩

def sTaskX : Task := ⟨7, projA, 0, 0, 0, [("name", .str "x")], []⟩

/-- Tasks for nested-JSON ordering: values "b", "a", and a missing key. -/
def dTaskB : Task := ⟨8, projA, 0, 0, 0, [], [("value", .str "b")]⟩

def dTaskA : Task := ⟨9, projA, 0, 0, 0, [], [("value", .str "a")]⟩

def dTaskNone : Task := ⟨10, projA, 0, 0, 0, [], []⟩

/-- A prepare-params value exercising the field-usage analysis: one
ordering key and two filter items, one of them a nested JSON path. -/
def pp9c : PrepareParams :=
  ⟨none,
   some ⟨.AND, [⟨"filter:tasks:completed_at", "empty", "Boolean", .str ""⟩,
                ⟨"filter:tasks:data.value", "contains", "String", .str ""⟩]⟩,
   ["-tasks:annotators"],
   none⟩

/-- Modelled from the spec wording of string emptiness: the field of the
record holds the empty string, holds NULL, or is unset. -/
def specStringEmpty (t : Task) (name : String) : Prop :=
  fieldGet t name = some (.str "") ∨ fieldGet t name = some .null ∨ fieldGet t name = none

instance (t : Task) (name : String) : Decidable (specStringEmpty t name) := by
  unfold specStringEmpty
  infer_instance

/-! ### Lemmas about the predicate-builder loop -/

theorem step_skipped (conj : ConjunctionEnum) (ou : Bool) (st : FState) (it : FilterItem)
    (h : skippedItem it = true) : step conj ou st it = .proceed st it := by
  unfold skippedItem at h
  unfold step
  simp only [h]
  rfl

theorem runItems_append (conj : ConjunctionEnum) (ou : Bool) (st : FState)
    (l₁ l₂ : List FilterItem) :
    runItems conj ou st (l₁ ++ l₂) =
      match runItems conj ou st l₁ with
      | .finished st' its =>
        (match runItems conj ou st' l₂ with
         | .finished st'' its2 => .finished st'' (its ++ its2)
         | .shortCircuit st'' its2 => .shortCircuit st'' (its ++ its2)
         | .failed e => .failed e)
      | .shortCircuit st' its => .shortCircuit st' (its ++ l₂)
      | .failed e => .failed e := by
  induction l₁ generalizing st with
  | nil =>
    dsimp only [List.nil_append, runItems]
    cases runItems conj ou st l₂ <;> simp
  | cons it rest ih =>
    dsimp only [List.cons_append, runItems]
    cases h : step conj ou st it with
    | proceed st' it' =>
      dsimp only
      rw [ih st']
      cases runItems conj ou st' rest with
      | finished st'' its =>
        dsimp only
        cases runItems conj ou st'' l₂ <;> rfl
      | shortCircuit st'' its => rfl
      | failed e => rfl
    | stopEmpty st' it' => rfl
    | fail e => rfl

theorem cast_value_shape {f f' : FilterItem} (h : cast_value f = .ok f') :
    ∃ v, f' = { f with value := v } := by
  unfold cast_value at h
  split at h <;> split_ifs at h <;> (try split at h)
  all_goals try cases h
  all_goals exact ⟨_, rfl⟩

theorem cast_value_filter {f f' : FilterItem} (h : cast_value f = .ok f') :
    f'.filter = f.filter := by
  obtain ⟨v, rfl⟩ := cast_value_shape h
  rfl

theorem cast_value_type {f f' : FilterItem} (h : cast_value f = .ok f') :
    f'.type = f.type := by
  obtain ⟨v, rfl⟩ := cast_value_shape h
  rfl

theorem stepRewriteItem_filter (ou : Bool) (f : FilterItem) :
    (stepRewriteItem ou f).filter = f.filter := by
  unfold stepRewriteItem
  split <;> rfl

theorem stepRewriteItem_type (ou : Bool) (f : FilterItem) :
    (stepRewriteItem ou f).type = f.type := by
  unfold stepRewriteItem
  split <;> rfl

set_option maxHeartbeats 1600000 in
theorem step_proceed_shape {conj : ConjunctionEnum} {ou : Bool} {st : FState}
    {it : FilterItem} {st' : FState} {it' : FilterItem}
    (h : step conj ou st it = .proceed st' it') :
    it'.filter = it.filter ∧ it'.type = it.type := by
  by_cases hskip : skippedItem it = true
  · rw [step_skipped _ _ _ _ hskip] at h
    injection h with h1 h2
    subst h2
    exact ⟨rfl, rfl⟩
  · rw [Bool.not_eq_true] at hskip
    unfold skippedItem at hskip
    unfold step at h
    rw [hskip] at h
    simp only [Bool.false_eq_true, if_false] at h
    all_goals try split at h
    all_goals try split at h
    all_goals try split at h
    all_goals try split at h
    all_goals try split at h
    all_goals try split at h
    all_goals try split at h
    all_goals try split at h
    all_goals try cases h
    all_goals
      first
      | exact ⟨stepRewriteItem_filter ou it, stepRewriteItem_type ou it⟩
      | exact ⟨(cast_value_filter (by assumption)).trans (stepRewriteItem_filter ou it),
               (cast_value_type (by assumption)).trans (stepRewriteItem_type ou it)⟩

set_option maxHeartbeats 1600000 in
theorem step_stopEmpty_shape {conj : ConjunctionEnum} {ou : Bool} {st : FState}
    {it : FilterItem} {st' : FState} {it' : FilterItem}
    (h : step conj ou st it = .stopEmpty st' it') :
    it'.filter = it.filter ∧ it'.type = it.type := by
  by_cases hskip : skippedItem it = true
  · rw [step_skipped _ _ _ _ hskip] at h
    cases h
  · rw [Bool.not_eq_true] at hskip
    unfold skippedItem at hskip
    unfold step at h
    rw [hskip] at h
    simp only [Bool.false_eq_true, if_false] at h
    all_goals try split at h
    all_goals try split at h
    all_goals try split at h
    all_goals try split at h
    all_goals try split at h
    all_goals try split at h
    all_goals try split at h
    all_goals try split at h
    all_goals try cases h
    all_goals exact ⟨stepRewriteItem_filter ou it, stepRewriteItem_type ou it⟩

theorem step_stopEmpty_not_skipped {conj : ConjunctionEnum} {ou : Bool} {st : FState}
    {it : FilterItem} {st' : FState} {it' : FilterItem}
    (h : step conj ou st it = .stopEmpty st' it') :
    skippedItem it = false := by
  by_cases hs : skippedItem it = true
  · rw [step_skipped _ _ _ _ hs] at h
    cases h
  · rw [Bool.not_eq_true] at hs
    exact hs

theorem step_proceed_of_skipped {conj : ConjunctionEnum} {ou : Bool} {st : FState}
    {it : FilterItem} {st' : FState} {it' : FilterItem}
    (h : step conj ou st it = .proceed st' it') (hs : skippedItem it = true) :
    it' = it := by
  rw [step_skipped _ _ _ _ hs] at h
  injection h with h1 h2
  exact h2.symm

theorem itemPreserved_refl (a : FilterItem) : itemPreserved a a :=
  ⟨rfl, rfl, fun _ => rfl⟩

theorem step_itemPreserved {conj : ConjunctionEnum} {ou : Bool} {st : FState}
    {it : FilterItem} {st' : FState} {it' : FilterItem}
    (h : step conj ou st it = .proceed st' it') : itemPreserved it it' := by
  obtain ⟨h1, h2⟩ := step_proceed_shape h
  exact ⟨h1, h2, fun hs => step_proceed_of_skipped h hs⟩

theorem runItems_forall₂ (conj : ConjunctionEnum) (ou : Bool) :
    ∀ (l : List FilterItem) (st : FState),
      (∀ st' its, runItems conj ou st l = .finished st' its →
        List.Forall₂ itemPreserved l its) ∧
      (∀ st' its, runItems conj ou st l = .shortCircuit st' its →
        List.Forall₂ itemPreserved l its) := by
  intro l
  induction l with
  | nil =>
    intro st
    constructor
    · intro st' its h
      cases h
      exact List.Forall₂.nil
    · intro st' its h
      cases h
  | cons it rest ih =>
    intro st
    constructor
    · intro st' its h
      dsimp only [runItems] at h
      cases hstep : step conj ou st it with
      | proceed stm itm =>
        simp only [hstep] at h
        cases hrun : runItems conj ou stm rest with
        | finished st2 its2 =>
          rw [hrun] at h
          dsimp only at h
          cases h
          exact List.Forall₂.cons (step_itemPreserved hstep) (((ih stm).1) _ _ hrun)
        | shortCircuit st2 its2 => simp only [hrun] at h; cases h
        | failed e => simp only [hrun] at h; cases h
      | stopEmpty stm itm => simp only [hstep] at h; cases h
      | fail e => simp only [hstep] at h; cases h
    · intro st' its h
      dsimp only [runItems] at h
      cases hstep : step conj ou st it with
      | proceed stm itm =>
        simp only [hstep] at h
        cases hrun : runItems conj ou stm rest with
        | finished st2 its2 => simp only [hrun] at h; cases h
        | shortCircuit st2 its2 =>
          rw [hrun] at h
          dsimp only at h
          cases h
          exact List.Forall₂.cons (step_itemPreserved hstep) (((ih stm).2) _ _ hrun)
        | failed e => simp only [hrun] at h; cases h
      | stopEmpty stm itm =>
        rw [hstep] at h
        dsimp only at h
        cases h
        have hsf : skippedItem it = false := step_stopEmpty_not_skipped hstep
        haveI : IsRefl FilterItem itemPreserved := ⟨itemPreserved_refl⟩
        refine List.Forall₂.cons ⟨(step_stopEmpty_shape hstep).1,
          (step_stopEmpty_shape hstep).2, fun hs => ?_⟩ (List.forall₂_refl rest)
        rw [hs] at hsf
        cases hsf
      | fail e => simp only [hstep] at h; cases h

/-! ### Lemmas about ordering -/

theorem valSortLe_total (x y : Val) : valSortLe x y = true ∨ valSortLe y x = true := by
  unfold valSortLe
  simp only [decide_eq_true_eq]
  exact le_total _ _

theorem valSortLe_trans {x y z : Val} (h1 : valSortLe x y = true)
    (h2 : valSortLe y z = true) : valSortLe x z = true := by
  unfold valSortLe at h1 h2 ⊢
  simp only [decide_eq_true_eq] at h1 h2 ⊢
  exact le_trans h1 h2

theorem nullsLastLe_total (asc : Bool) (keyF : Task → Option Val) (a b : Task) :
    nullsLastLe asc keyF a b = true ∨ nullsLastLe asc keyF b a = true := by
  unfold nullsLastLe
  cases keyF a with
  | none =>
    cases keyF b with
    | none => exact Or.inl rfl
    | some y => exact Or.inr rfl
  | some x =>
    cases keyF b with
    | none => exact Or.inl rfl
    | some y =>
      dsimp only
      cases asc with
      | true =>
        simp only [if_true]
        exact valSortLe_total x y
      | false =>
        simp only [Bool.false_eq_true, if_false]
        exact valSortLe_total y x

theorem nullsLastLe_trans {asc : Bool} {keyF : Task → Option Val} {a b c : Task}
    (h1 : nullsLastLe asc keyF a b = true) (h2 : nullsLastLe asc keyF b c = true) :
    nullsLastLe asc keyF a c = true := by
  unfold nullsLastLe at h1 h2 ⊢
  cases hka : keyF a with
  | none =>
    cases hkb : keyF b with
    | none =>
      cases hkc : keyF c with
      | none => rfl
      | some z =>
        rw [hkb, hkc] at h2
        exact Bool.noConfusion h2
    | some y =>
      rw [hka, hkb] at h1
      exact Bool.noConfusion h1
  | some x =>
    cases hkc : keyF c with
    | none => rfl
    | some z =>
      cases hkb : keyF b with
      | none =>
        rw [hkb, hkc] at h2
        exact Bool.noConfusion h2
      | some y =>
        rw [hka, hkb] at h1
        rw [hkb, hkc] at h2
        dsimp only at h1 h2 ⊢
        cases asc with
        | true =>
          simp only [if_true] at h1 h2 ⊢
          exact valSortLe_trans h1 h2
        | false =>
          simp only [Bool.false_eq_true, if_false] at h1 h2 ⊢
          exact valSortLe_trans h2 h1

theorem nullsLastLe_none_mono {asc : Bool} {keyF : Task → Option Val} {a b : Task}
    (h : nullsLastLe asc keyF a b = true) (ha : keyF a = none) : keyF b = none := by
  unfold nullsLastLe at h
  rw [ha] at h
  cases hkb : keyF b with
  | none => rfl
  | some y =>
    rw [hkb] at h
    exact Bool.noConfusion h

theorem orderBy_sorted (asc : Bool) (keyF : Task → Option Val) (qs : List Task) :
    List.Sorted (fun a b => nullsLastLe asc keyF a b = true) (orderBy asc keyF qs) := by
  haveI : IsTotal Task (fun a b => nullsLastLe asc keyF a b = true) :=
    ⟨nullsLastLe_total asc keyF⟩
  haveI : IsTrans Task (fun a b => nullsLastLe asc keyF a b = true) :=
    ⟨fun _ _ _ => nullsLastLe_trans⟩
  exact List.sorted_insertionSort _ qs

theorem orderBy_perm (asc : Bool) (keyF : Task → Option Val) (qs : List Task) :
    (orderBy asc keyF qs).Perm qs :=
  List.perm_insertionSort _ qs

theorem nullsLastLe_id {a b : Task}
    (h : nullsLastLe true (fun t => some (.int t.id)) a b = true) : a.id ≤ b.id := by
  unfold nullsLastLe at h
  dsimp only at h
  rw [if_pos rfl] at h
  unfold valSortLe at h
  rw [decide_eq_true_eq] at h
  unfold valSortKey valRank valNumKey valStrKey valAuxKey at h
  dsimp only at h
  rw [Prod.Lex.le_iff] at h
  rcases h with h | ⟨-, h⟩
  · exact absurd h (lt_irrefl _)
  · rw [Prod.Lex.le_iff] at h
    rcases h with h | ⟨heq, -⟩
    · have h2 : (a.id : Rat) < (b.id : Rat) := h
      exact le_of_lt (by exact_mod_cast h2)
    · have h2 : (a.id : Rat) = (b.id : Rat) := heq
      exact le_of_eq (by exact_mod_cast h2)

theorem orderBy_id_sorted (qs : List Task) :
    List.Sorted (fun a b : Task => a.id ≤ b.id)
      (orderBy true (fun t => some (.int t.id)) qs) :=
  (orderBy_sorted true _ qs).imp (fun h => nullsLastLe_id h)

/-! ### Lemmas about the field-usage analysis -/

theorem mem_get_fields (pp : PrepareParams) (f : String) :
    f ∈ get_fields_for_annotation pp
      ↔ (f ∈ (match pp.ordering with
              | [] => ([] : List String)
              | o :: _ => [strReplace (strReplace o "tasks:" "") "-" ""])
          ∨ f ∈ (match pp.filters with
                 | none => ([] : List String)
                 | some fs => fs.items.map
                     (fun it : FilterItem => strReplace it.filter "filter:tasks:" "")))
        ∧ ¬ f ∈ taskModelFieldAttnames ++ ["id"]
        ∧ strStartsWith f "data." = false := by
  unfold get_fields_for_annotation
  simp only [List.mem_filter, List.mem_dedup, List.mem_append, Bool.not_eq_true',
    List.contains, List.elem_eq_mem, decide_eq_false_iff_not]
  tauto

theorem invokeAnnotators_ok {l l' : List String} (h : invokeAnnotators l = .ok l') :
    l' = l := by
  induction l generalizing l' with
  | nil =>
    unfold invokeAnnotators at h
    cases h
    rfl
  | cons f r ih =>
    unfold invokeAnnotators at h
    split_ifs at h with hf
    · cases hr : invokeAnnotators r with
      | ok lr =>
        rw [hr] at h
        dsimp only [Except.map] at h
        cases h
        rw [ih hr]
      | error e =>
        rw [hr] at h
        dsimp only [Except.map] at h
        cases h

/-! ### Claim C4 -/

/-- C4: an item with a falsy value or without the `filter:tasks:` routing
namespace contributes no predicate (rows and logs agree with the run that
omits the item), and an absent or empty filter set applies no filtering. -/
theorem c4_skipped_items_and_empty_filters (qs : List Task) (conj : ConjunctionEnum)
    (pre post : List FilterItem) (it : FilterItem)
    (h : skippedItem it = true) :
    ((apply_filters qs (some ⟨conj, pre ++ it :: post⟩)).map (fun r => (r.rows, r.logs))
        = (apply_filters qs (some ⟨conj, pre ++ post⟩)).map (fun r => (r.rows, r.logs)))
    ∧ apply_filters qs none = .ok ⟨qs, none, []⟩
    ∧ (apply_filters qs (some ⟨conj, []⟩)).map ApplyResult.rows = .ok qs := by
  refine ⟨?_, rfl, rfl⟩
  dsimp only [apply_filters]
  rw [runItems_append conj (onlyUndefinedOf qs) ⟨[], none, []⟩ pre (it :: post),
    runItems_append conj (onlyUndefinedOf qs) ⟨[], none, []⟩ pre post]
  cases runItems conj (onlyUndefinedOf qs) ⟨[], none, []⟩ pre with
  | finished st' its =>
    dsimp only [runItems]
    rw [step_skipped conj (onlyUndefinedOf qs) st' it h]
    dsimp only
    cases runItems conj (onlyUndefinedOf qs) st' post <;> rfl
  | shortCircuit st' its => rfl
  | failed e => rfl

/-- C4 witness: a falsy-valued item and a non-namespaced item at a
concrete input. -/
theorem c4_skipped_items_witness :
    ((apply_filters [cTask0] (some ⟨.AND,
          [] ++ ⟨"filter:tasks:name", "equal", "String", .str ""⟩ :: []⟩)).map
        (fun r => (r.rows, r.logs))
      = (apply_filters [cTask0] (some ⟨.AND, [] ++ []⟩)).map (fun r => (r.rows, r.logs)))
    ∧ apply_filters [cTask0] none = .ok ⟨[cTask0], none, []⟩
    ∧ (apply_filters [cTask0] (some ⟨.AND, []⟩)).map ApplyResult.rows = .ok [cTask0] :=
  c4_skipped_items_and_empty_filters [cTask0] .AND [] []
    ⟨"filter:tasks:name", "equal", "String", .str ""⟩ (by decide)

theorem step_generic_path (conj : ConjunctionEnum) (ou : Bool) (st : FState)
    (f f3 : FilterItem)
    (hskip : skippedItem f = false)
    (hstr : ¬ (((stepRewriteItem ou f).type = "String" ∨ (stepRewriteItem ou f).type = "Unknown")
        ∧ (stepRewriteItem ou f).operator = "empty"))
    (hrx : ¬ ((stepRewriteItem ou f).operator = "regex"
        ∧ regexCompileOk (pyStr (stepRewriteItem ou f).value) = false))
    (hin : ¬ (stepRewriteItem ou f).operator = "in")
    (hnin : ¬ (stepRewriteItem ou f).operator = "not_in")
    (hemp : ¬ (stepRewriteItem ou f).operator = "empty")
    (hcast : cast_value (stepRewriteItem ou f) = .ok f3) :
    ∃ st', step conj ou st f = .proceed st' f3 := by
  unfold skippedItem at hskip
  unfold step
  rw [hskip]
  simp only [Bool.false_eq_true, if_false]
  rw [if_neg hstr, if_neg hrx, if_neg hin, if_neg hnin, if_neg hemp]
  by_cases hns : strStartsWith (stepRewriteItem ou f).operator "not_" = true
  · rw [if_pos hns, hcast]
    exact ⟨_, rfl⟩
  · rw [if_neg hns, hcast]
    exact ⟨_, rfl⟩

theorem step_generic_path_err (conj : ConjunctionEnum) (ou : Bool) (st : FState)
    (f : FilterItem) (e : String)
    (hskip : skippedItem f = false)
    (hstr : ¬ (((stepRewriteItem ou f).type = "String" ∨ (stepRewriteItem ou f).type = "Unknown")
        ∧ (stepRewriteItem ou f).operator = "empty"))
    (hrx : ¬ ((stepRewriteItem ou f).operator = "regex"
        ∧ regexCompileOk (pyStr (stepRewriteItem ou f).value) = false))
    (hin : ¬ (stepRewriteItem ou f).operator = "in")
    (hnin : ¬ (stepRewriteItem ou f).operator = "not_in")
    (hemp : ¬ (stepRewriteItem ou f).operator = "empty")
    (hcast : cast_value (stepRewriteItem ou f) = .error e) :
    step conj ou st f = .fail e := by
  unfold skippedItem at hskip
  unfold step
  rw [hskip]
  simp only [Bool.false_eq_true, if_false]
  rw [if_neg hstr, if_neg hrx, if_neg hin, if_neg hnin, if_neg hemp]
  by_cases hns : strStartsWith (stepRewriteItem ou f).operator "not_" = true
  · rw [if_pos hns, hcast]
  · rw [if_neg hns, hcast]

theorem step_string_empty_path (conj : ConjunctionEnum) (ou : Bool) (st : FState)
    (f : FilterItem)
    (hskip : skippedItem f = false)
    (hcnt : ¬ (counterFields (stepCleanFieldName ou f) ∧ f.operator = "empty"))
    (hty : f.type = "String" ∨ f.type = "Unknown")
    (hop : f.operator = "empty") :
    ∃ st', step conj ou st f
        = .proceed st' f
      ∧ st'.expr = addQ conj st.expr (stringEmptyQ st.anns (stepFieldName ou f) f.value)
      ∧ st'.anns = st.anns ∧ st'.logs = st.logs := by
  have hrw : stepRewriteItem ou f = f := by
    unfold stepRewriteItem
    rw [if_neg hcnt]
  unfold skippedItem at hskip
  unfold step
  rw [hskip]
  simp only [Bool.false_eq_true, if_false]
  rw [hrw, if_pos ⟨hty, hop⟩]
  have hann : ¬ stepAnnotate ou f := by
    intro hcon
    unfold stepAnnotate at hcon
    rcases hty with h | h <;> rw [h] at hcon <;> exact absurd hcon.1 (by decide)
  rw [if_neg hann]
  exact ⟨_, rfl, rfl, rfl, rfl⟩

theorem resolveField_nil (t : Task) (name : String) :
    resolveField [] t name = fieldGet t name := rfl

theorem splitLookup_plain {name : String} (h : plainColumn name = true) :
    splitLookup name = (name, .exact) := by
  unfold plainColumn lookupSuffixes at h
  simp only [List.all_cons, List.all_nil, Bool.and_eq_true, Bool.not_eq_true',
    and_true] at h
  obtain ⟨h1, h2, h3, h4, h5, h6, h7⟩ := h
  unfold splitLookup lookupSuffixes
  simp [List.find?, h1, h2, h3, h4, h5, h6, h7]

theorem endsWithL_append (name suf : String) : endsWithL (name ++ suf) suf = true := by
  unfold endsWithL
  rw [String.data_append, List.length_append, Nat.add_sub_cancel, List.drop_left]
  simp

theorem dropSuffixL_append (name suf : String) : dropSuffixL (name ++ suf) suf = name := by
  unfold dropSuffixL
  rw [String.data_append, List.length_append, Nat.add_sub_cancel, List.take_left]

theorem splitLookup_isnull (name : String) :
    splitLookup (name ++ "__isnull") = (name, .isnull) := by
  unfold splitLookup lookupSuffixes
  simp [List.find?, endsWithL_append, dropSuffixL_append]

theorem valEqB_empty_str (w : Val) : valEqB w (.str "") = true ↔ w = .str "" := by
  cases w <;> simp [valEqB, valToRat?]

theorem isNullOpt_iff (o : Option Val) : isNullOpt o = true ↔ o = some .null ∨ o = none := by
  cases o with
  | none => simp [isNullOpt]
  | some w => cases w <;> simp [isNullOpt]

theorem stringEmptyQ_eval (name : String) (v : Val) (t : Task)
    (hplain : plainColumn name = true) :
    stringEmptyQ [] name v t = true
      ↔ (if castBoolTruthy v then specStringEmpty t name
         else ¬ specStringEmpty t name) := by
  have hq1 : qEval [] name (.str "") t = true ↔ fieldGet t name = some (.str "") := by
    unfold qEval
    rw [splitLookup_plain hplain]
    dsimp only
    rw [if_neg (by simp : ¬ (Val.str "" = Val.null))]
    rw [resolveField_nil]
    cases hf : fieldGet t name with
    | none => simp
    | some w => simp [valEqB_empty_str]
  have hq2 : qEval [] name .null t = true
      ↔ (fieldGet t name = some .null ∨ fieldGet t name = none) := by
    unfold qEval
    rw [splitLookup_plain hplain]
    dsimp only
    rw [if_pos rfl, resolveField_nil]
    exact isNullOpt_iff _
  have hq3 : qEval [] (name ++ "__isnull") (.bool true) t = true
      ↔ (fieldGet t name = some .null ∨ fieldGet t name = none) := by
    unfold qEval
    rw [splitLookup_isnull]
    dsimp only
    rw [resolveField_nil]
    simp [valTruthy, isNullOpt_iff]
  unfold stringEmptyQ
  cases hcb : castBoolTruthy v with
  | true =>
    simp only [if_true]
    unfold specStringEmpty
    simp only [Bool.or_eq_true, hq1, hq2, hq3]
    tauto
  | false =>
    simp only [Bool.false_eq_true, if_false]
    unfold specStringEmpty
    simp only [Bool.and_eq_true, Bool.not_eq_true']
    constructor
    · intro h hcon
      obtain ⟨⟨a, b⟩, c⟩ := h
      rcases hcon with h | h | h
      · rw [hq1.mpr h] at a
        simp at a
      · rw [hq2.mpr (Or.inl h)] at b
        simp at b
      · rw [hq2.mpr (Or.inr h)] at b
        simp at b
    · intro hno
      refine ⟨⟨?_, ?_⟩, ?_⟩
      · cases hx : qEval [] name (.str "") t with
        | false => rfl
        | true => exact absurd (Or.inl (hq1.mp hx)) hno
      · cases hx : qEval [] name .null t with
        | false => rfl
        | true =>
          rcases hq2.mp hx with h | h
          · exact absurd (Or.inr (Or.inl h)) hno
          · exact absurd (Or.inr (Or.inr h)) hno
      · cases hx : qEval [] (name ++ "__isnull") (.bool true) t with
        | false => rfl
        | true =>
          rcases hq3.mp hx with h | h
          · exact absurd (Or.inr (Or.inl h)) hno
          · exact absurd (Or.inr (Or.inr h)) hno

theorem apply_filters_single_proceed {qs : List Task} {conj : ConjunctionEnum}
    {it : FilterItem} {st' : FState} {it' : FilterItem}
    (h : step conj (onlyUndefinedOf qs) ⟨[], none, []⟩ it = .proceed st' it') :
    apply_filters qs (some ⟨conj, [it]⟩)
      = .ok ⟨(match st'.expr with
              | none => qs
              | some p => qs.filter p),
             some ⟨conj, [it']⟩, st'.logs ++ ["Apply filter"]⟩ := by
  dsimp only [apply_filters, runItems]
  rw [h]

theorem apply_filters_single_fail {qs : List Task} {conj : ConjunctionEnum}
    {it : FilterItem} {e : String}
    (h : step conj (onlyUndefinedOf qs) ⟨[], none, []⟩ it = .fail e) :
    apply_filters qs (some ⟨conj, [it]⟩) = .error e := by
  dsimp only [apply_filters, runItems]
  rw [h]

theorem stepRewriteItem_counter (ou : Bool) (f : FilterItem)
    (hcnt : counterFields (stepCleanFieldName ou f)) (hop : f.operator = "empty") :
    stepRewriteItem ou f
      = { f with operator := if castBoolTruthy f.value then "equal" else "not_equal",
                 value := .int 0 } := by
  unfold stepRewriteItem
  rw [if_pos ⟨hcnt, hop⟩]

/-- A single Boolean `empty` filter on a counter column: the item is
rewritten in place to an equality against 0. -/
theorem counter_empty_single (qs : List Task) (conj : ConjunctionEnum) (raw : String)
    (v : Val)
    (hsw : strStartsWith raw "filter:tasks:" = true)
    (hv : valTruthy v = true)
    (hcnt : ∀ ou : Bool, counterFields (stepCleanFieldName ou ⟨raw, "empty", "Boolean", v⟩)) :
    (apply_filters qs (some ⟨conj, [⟨raw, "empty", "Boolean", v⟩]⟩)).map
        ApplyResult.filtersOut
      = .ok (some ⟨conj, [⟨raw, if castBoolTruthy v then "equal" else "not_equal",
          "Boolean", .int 0⟩]⟩) := by
  have hsk : skippedItem ⟨raw, "empty", "Boolean", v⟩ = false := by
    unfold skippedItem
    simp [hsw, hv]
  have hrw := stepRewriteItem_counter (onlyUndefinedOf qs) ⟨raw, "empty", "Boolean", v⟩
    (hcnt _) rfl
  cases hcb : castBoolTruthy v with
  | false =>
    simp only [hcb, Bool.false_eq_true, if_false] at hrw ⊢
    obtain ⟨st2, hstep⟩ := step_generic_path conj (onlyUndefinedOf qs) ⟨[], none, []⟩
      ⟨raw, "empty", "Boolean", v⟩ ⟨raw, "not_equal", "Boolean", .int 0⟩
      hsk
      (by rw [hrw]; intro hcon; have h9 : "not_equal" = "empty" := hcon.2; exact absurd h9 (by decide))
      (by rw [hrw]; intro hcon; have h9 : "not_equal" = "regex" := hcon.1; exact absurd h9 (by decide))
      (by rw [hrw]; intro hcon; have h9 : "not_equal" = "in" := hcon; exact absurd h9 (by decide))
      (by rw [hrw]; intro hcon; have h9 : "not_equal" = "not_in" := hcon; exact absurd h9 (by decide))
      (by rw [hrw]; intro hcon; have h9 : "not_equal" = "empty" := hcon; exact absurd h9 (by decide))
      (by rw [hrw]; rfl)
    rw [apply_filters_single_proceed hstep]
    rfl
  | true =>
    simp only [hcb, if_true] at hrw ⊢
    obtain ⟨st2, hstep⟩ := step_generic_path conj (onlyUndefinedOf qs) ⟨[], none, []⟩
      ⟨raw, "empty", "Boolean", v⟩ ⟨raw, "equal", "Boolean", .int 0⟩
      hsk
      (by rw [hrw]; intro hcon; have h9 : "equal" = "empty" := hcon.2; exact absurd h9 (by decide))
      (by rw [hrw]; intro hcon; have h9 : "equal" = "regex" := hcon.1; exact absurd h9 (by decide))
      (by rw [hrw]; intro hcon; have h9 : "equal" = "in" := hcon; exact absurd h9 (by decide))
      (by rw [hrw]; intro hcon; have h9 : "equal" = "not_in" := hcon; exact absurd h9 (by decide))
      (by rw [hrw]; intro hcon; have h9 : "equal" = "empty" := hcon; exact absurd h9 (by decide))
      (by rw [hrw]; rfl)
    rw [apply_filters_single_proceed hstep]
    rfl

/-! ### Claim C1 -/

/-- C1 counterexample: the value `""` coerces to false under
`cast_bool_from_str`, so the claim predicts a rewrite to `not_equal 0`
(keeping the tasks with a non-zero counter); but `""` is falsy in the
Python sense, so line 144 skips the item before the counter special case
is reached: the item comes back untouched and the full result set is
returned. -/
theorem c1_counterexample :
    castBoolTruthy (.str "") = false
    ∧ apply_filters [cTask0, cTask1, cTask2]
        (some ⟨.AND, [⟨"filter:tasks:total_annotations", "empty", "Boolean", .str ""⟩]⟩)
      = .ok ⟨[cTask0, cTask1, cTask2],
             some ⟨.AND, [⟨"filter:tasks:total_annotations", "empty", "Boolean", .str ""⟩]⟩,
             ["Apply filter"]⟩ :=
  ⟨by decide, by decide⟩

/-- C1 (corrected): for a filter item on one of the three counter columns
with operator `empty`, of any type and value: if the raw value is falsy in
the Python sense (or the routing prefix is missing) the loop skips the
item — no rewrite happens and the full queryset is returned with the item
untouched; if the item is processed, the counter special case (lines
166-169) rewrites it — for every filter type — to operator `equal` with
value 0 when the value coerces to true under `cast_bool_from_str` and to
`not_equal` with value 0 when it coerces to false; for a Boolean item the
rewritten pair is what the call returns in the filter structure; and on
the target set of three tasks with `total_annotations` 0, 1, 2 the
Boolean filter `empty "true"` returns exactly the task with
`total_annotations = 0`. -/
theorem c1_counter_empty_rewrite (qs : List Task) (conj : ConjunctionEnum)
    (raw ty : String) (v : Val)
    (hcnt : ∀ ou : Bool, counterFields (stepCleanFieldName ou ⟨raw, "empty", ty, v⟩)) :
    (skippedItem ⟨raw, "empty", ty, v⟩ = true →
        apply_filters qs (some ⟨conj, [⟨raw, "empty", ty, v⟩]⟩)
          = .ok ⟨qs, some ⟨conj, [⟨raw, "empty", ty, v⟩]⟩, ["Apply filter"]⟩)
    ∧ (∀ ou : Bool, stepRewriteItem ou ⟨raw, "empty", ty, v⟩
          = ⟨raw, if castBoolTruthy v then "equal" else "not_equal", ty, .int 0⟩)
    ∧ (ty = "Boolean" → skippedItem ⟨raw, "empty", ty, v⟩ = false →
        (apply_filters qs (some ⟨conj, [⟨raw, "empty", ty, v⟩]⟩)).map
            ApplyResult.filtersOut
          = .ok (some ⟨conj, [⟨raw,
              if castBoolTruthy v then "equal" else "not_equal", ty, .int 0⟩]⟩))
    ∧ (apply_filters [cTask0, cTask1, cTask2] (some ⟨.AND,
          [⟨"filter:tasks:total_annotations", "empty", "Boolean", .str "true"⟩]⟩)).map
        ApplyResult.rows = .ok [cTask0] := by
  refine ⟨?_, ?_, ?_, by decide⟩
  · intro hskip
    have h := apply_filters_single_proceed
      (step_skipped conj (onlyUndefinedOf qs) ⟨[], none, []⟩ ⟨raw, "empty", ty, v⟩ hskip)
    rw [h]
    rfl
  · intro ou
    exact (stepRewriteItem_counter ou ⟨raw, "empty", ty, v⟩ (hcnt ou) rfl).trans rfl
  · intro hty hskip
    subst hty
    unfold skippedItem at hskip
    rw [Bool.or_eq_false_iff, Bool.not_eq_false', Bool.not_eq_false'] at hskip
    exact counter_empty_single qs conj raw v hskip.1 hskip.2 hcnt

/-- C1 witness: the corrected claim at concrete inputs — a falsy-valued
item on `cancelled_annotations` is skipped whole, a Number-typed item on
`total_predictions` with the string value "false" is rewritten to
`not_equal 0`, a Boolean item on `total_annotations` with value "yes"
comes back as `equal 0`, and the three-task scenario returns exactly the
task with counter 0. -/
theorem c1_counter_empty_rewrite_witness :
    (apply_filters [cTask0, cTask1, cTask2]
        (some ⟨.AND, [⟨"filter:tasks:cancelled_annotations", "empty", "Boolean", .str ""⟩]⟩)
      = .ok ⟨[cTask0, cTask1, cTask2],
             some ⟨.AND, [⟨"filter:tasks:cancelled_annotations", "empty", "Boolean",
               .str ""⟩]⟩,
             ["Apply filter"]⟩)
    ∧ stepRewriteItem false
        ⟨"filter:tasks:total_predictions", "empty", "Number", .str "false"⟩
        = ⟨"filter:tasks:total_predictions", "not_equal", "Number", .int 0⟩
    ∧ ((apply_filters [cTask0, cTask1, cTask2]
          (some ⟨.AND, [⟨"filter:tasks:total_annotations", "empty", "Boolean",
            .str "yes"⟩]⟩)).map
            ApplyResult.filtersOut
        = .ok (some ⟨.AND, [⟨"filter:tasks:total_annotations", "equal", "Boolean",
            .int 0⟩]⟩))
    ∧ (apply_filters [cTask0, cTask1, cTask2] (some ⟨.AND,
          [⟨"filter:tasks:total_annotations", "empty", "Boolean", .str "true"⟩]⟩)).map
        ApplyResult.rows = .ok [cTask0] := by
  refine ⟨?_, ?_, ?_, ?_⟩
  · exact (c1_counter_empty_rewrite [cTask0, cTask1, cTask2] .AND
      "filter:tasks:cancelled_annotations" "Boolean" (.str "")
      (by intro ou; cases ou <;> exact Or.inr (Or.inr rfl))).1 (by decide)
  · exact ((c1_counter_empty_rewrite [cTask0, cTask1, cTask2] .AND
      "filter:tasks:total_predictions" "Number" (.str "false")
      (by intro ou; cases ou <;> exact Or.inl rfl)).2.1 false).trans (by decide)
  · exact ((c1_counter_empty_rewrite [cTask0, cTask1, cTask2] .AND
      "filter:tasks:total_annotations" "Boolean" (.str "yes")
      (by intro ou; cases ou <;> exact Or.inr (Or.inl rfl))).2.2.1 rfl
        (by decide)).trans (by decide)
  · exact (c1_counter_empty_rewrite [cTask0, cTask1, cTask2] .AND
      "filter:tasks:total_annotations" "Boolean" (.str "true")
      (by intro ou; cases ou <;> exact Or.inr (Or.inl rfl))).2.2.2

/-! ### Claim C3 -/

theorem step_regex_invalid (conj : ConjunctionEnum) (ou : Bool) (st : FState)
    (it : FilterItem) (hskip : skippedItem it = false)
    (hop : it.operator = "regex")
    (hrx : regexCompileOk (pyStr it.value) = false) :
    ∃ anns', step conj ou st it
      = .stopEmpty ⟨anns', st.expr,
          st.logs ++ ["Incorrect regex for filter: " ++ pyStr it.value]⟩ it := by
  have hrw : stepRewriteItem ou it = it := by
    unfold stepRewriteItem
    rw [if_neg]
    intro hc
    rw [hop] at hc
    exact absurd hc.2 (by decide)
  unfold skippedItem at hskip
  unfold step
  rw [hskip]
  simp only [Bool.false_eq_true, if_false]
  rw [hrw, hop]
  rw [if_neg (by intro hc; exact absurd hc.2 (by decide))]
  rw [if_pos ⟨rfl, hrx⟩]
  by_cases ha : stepAnnotate ou it
  · rw [if_pos ha]
    exact ⟨_, rfl⟩
  · rw [if_neg ha]
    exact ⟨_, rfl⟩

/-- C3 counterexample: a filters value containing an invalid-regex item
without the routing namespace leaves the item skipped, so the whole target
set is returned rather than the empty set the claim demands. -/
theorem c3_counterexample :
    ¬ ((apply_filters [cTask0] (some ⟨.AND, [⟨"x", "regex", "String", .str "["⟩]⟩)).map
          ApplyResult.rows = .ok []) := by
  decide

/-- C3 (amended): when the invalid-regex item carries the routing
namespace and a truthy value, and is reached by the loop (every earlier
item processed without raising or short-circuiting), `apply_filters`
returns the empty result set, appends the diagnostic log entry, and raises
no exception. -/
theorem c3_regex_invalid_short_circuits (qs : List Task) (conj : ConjunctionEnum)
    (pre post : List FilterItem) (it : FilterItem) (st : FState) (its : List FilterItem)
    (hpre : runItems conj (onlyUndefinedOf qs) ⟨[], none, []⟩ pre = .finished st its)
    (hop : it.operator = "regex") (hskip : skippedItem it = false)
    (hrx : regexCompileOk (pyStr it.value) = false) :
    apply_filters qs (some ⟨conj, pre ++ it :: post⟩)
      = .ok ⟨[], some ⟨conj, its ++ it :: post⟩,
             st.logs ++ ["Incorrect regex for filter: " ++ pyStr it.value]⟩ := by
  dsimp only [apply_filters]
  rw [runItems_append conj (onlyUndefinedOf qs) ⟨[], none, []⟩ pre (it :: post), hpre]
  dsimp only [runItems]
  obtain ⟨anns', hstep⟩ := step_regex_invalid conj (onlyUndefinedOf qs) st it hskip hop hrx
  rw [hstep]

/-- C3 witness: the amended claim at a concrete input (pattern `"["`). -/
theorem c3_regex_invalid_witness :
    apply_filters [cTask0] (some ⟨.AND, [⟨"filter:tasks:name", "regex", "String", .str "["⟩]⟩)
      = .ok ⟨[], some ⟨.AND, [⟨"filter:tasks:name", "regex", "String", .str "["⟩]⟩,
             ["Incorrect regex for filter: ["]⟩ := by
  have := c3_regex_invalid_short_circuits [cTask0] .AND [] []
    ⟨"filter:tasks:name", "regex", "String", .str "["⟩ ⟨[], none, []⟩ []
    rfl rfl (by decide) (by decide)
  simpa using this

/-! ### Claim C7 -/

/-- C7 counterexample: `apply_filters` mutates the filter item in place:
the counter-empty special case rewrites its operator and value, so the
filters value after the call differs from the one passed in. -/
theorem c7_counterexample :
    ¬ ((apply_filters []
          (some ⟨.AND, [⟨"filter:tasks:total_annotations", "empty", "Boolean", .str "true"⟩]⟩)).map
            ApplyResult.filtersOut
        = .ok (some ⟨.AND,
            [⟨"filter:tasks:total_annotations", "empty", "Boolean", .str "true"⟩]⟩)) := by
  decide

/-- C7 (amended): one query build preserves the structure of the Filters
value: the conjunction, the number and order of items, and every item's
field path and type; an item the loop skips (falsy value or missing
routing namespace) is kept whole; operator and value may be rewritten only
by the counter-empty special case and by value coercion. -/
theorem c7_structure_preserved (qs : List Task) (fs : Filters) (res : ApplyResult)
    (h : apply_filters qs (some fs) = .ok res) :
    ∃ items', res.filtersOut = some ⟨fs.conjunction, items'⟩ ∧
      List.Forall₂ itemPreserved fs.items items' := by
  dsimp only [apply_filters] at h
  cases hr : runItems fs.conjunction (onlyUndefinedOf qs) ⟨[], none, []⟩ fs.items with
  | failed e => rw [hr] at h; cases h
  | shortCircuit st its =>
    rw [hr] at h
    dsimp only at h
    cases h
    exact ⟨its, rfl, (runItems_forall₂ fs.conjunction (onlyUndefinedOf qs) fs.items _).2 _ _ hr⟩
  | finished st its =>
    rw [hr] at h
    dsimp only at h
    cases h
    exact ⟨its, rfl, (runItems_forall₂ fs.conjunction (onlyUndefinedOf qs) fs.items _).1 _ _ hr⟩

/-- C7 witness: the amended claim at a concrete build whose item is
rewritten by the counter special case. -/
theorem c7_structure_preserved_witness :
    ∃ items',
      (ApplyResult.mk []
          (some ⟨.AND, [⟨"filter:tasks:total_annotations", "equal", "Boolean", .int 0⟩]⟩)
          ["Apply filter"]).filtersOut
        = some ⟨.AND, items'⟩ ∧
      List.Forall₂ itemPreserved
        [⟨"filter:tasks:total_annotations", "empty", "Boolean", .str "true"⟩] items' :=
  c7_structure_preserved []
    ⟨.AND, [⟨"filter:tasks:total_annotations", "empty", "Boolean", .str "true"⟩]⟩
    ⟨[], some ⟨.AND, [⟨"filter:tasks:total_annotations", "equal", "Boolean", .int 0⟩]⟩,
      ["Apply filter"]⟩
    (by decide)

/-! ### Claim C8 -/

theorem cast_value_scalar_number {f : FilterItem} (hty : f.type = "Number")
    (hnr : ∀ mn mx : Val, f.value ≠ .range mn mx) :
    cast_value f = (match pyFloat f.value with
      | .ok q => .ok { f with value := .num q }
      | .error e => .error e) := by
  unfold cast_value
  split
  · rename_i mn mx heq
    exact absurd heq (hnr mn mx)
  · rw [if_pos hty]

theorem cast_value_scalar_datetime {f : FilterItem} (hty : f.type = "Datetime")
    (hnr : ∀ mn mx : Val, f.value ≠ .range mn mx) :
    cast_value f = (match pyStrptime f.value with
      | .ok d => .ok { f with value := .dt d }
      | .error e => .error e) := by
  have hn : ¬ f.type = "Number" := by
    intro hcon
    rw [hty] at hcon
    exact absurd hcon (by decide)
  unfold cast_value
  split
  · rename_i mn mx heq
    exact absurd heq (hnr mn mx)
  · rw [if_neg hn, if_pos hty]

theorem cast_value_passthrough {f : FilterItem}
    (hty : f.type = "String" ∨ f.type = "Unknown") :
    cast_value f = .ok f := by
  have hn : ¬ f.type = "Number" := by
    intro hcon
    rcases hty with h | h <;> (rw [h] at hcon; exact absurd hcon (by decide))
  have hd : ¬ f.type = "Datetime" := by
    intro hcon
    rcases hty with h | h <;> (rw [h] at hcon; exact absurd hcon (by decide))
  have hb : ¬ f.type = "Boolean" := by
    intro hcon
    rcases hty with h | h <;> (rw [h] at hcon; exact absurd hcon (by decide))
  unfold cast_value
  split
  · rw [if_neg hn, if_neg hd]
  · rw [if_neg hn, if_neg hd, if_neg hb]

/-- C8 counterexample: a Number filter with the non-parsable value "abc"
and the generic `empty` operator neither coerces the value nor raises: the
claim demands a propagated value-error, but the call returns normally with
the raw value intact (the `empty` branch never calls `cast_value`). -/
theorem c8_counterexample :
    apply_filters [cTask0]
        (some ⟨.AND, [⟨"filter:tasks:score", "empty", "Number", .str "abc"⟩]⟩)
      = .ok ⟨[], some ⟨.AND, [⟨"filter:tasks:score", "empty", "Number", .str "abc"⟩]⟩,
          ["Apply filter"]⟩
    ∧ apply_filters [cTask0]
        (some ⟨.AND, [⟨"filter:tasks:score", "empty", "Number", .str "abc"⟩]⟩)
      ≠ .error "ValueError: could not convert string to float: abc" := by
  constructor <;> decide

/-- C8 (amended): for a filter item on the generic predicate path — an
operator other than the string-empty special case, the regex-failure
short-circuit, the null-flag operator `empty` and the range operators
`in` / `not_in` — value coercion runs exactly once: a Number value is
replaced by its float coercion, a non-parsable one raises a propagated
value-error; a Datetime value is parsed with the fixed format, a mismatch
raises a propagated error; a String/Unknown value passes through
unchanged. -/
theorem c8_coercion_on_generic_path (qs : List Task) (conj : ConjunctionEnum)
    (raw op : String) (v : Val)
    (hsw : strStartsWith raw "filter:tasks:" = true)
    (hv : valTruthy v = true)
    (hemp : op ≠ "empty") (hin : op ≠ "in") (hnin : op ≠ "not_in")
    (hrgx : op = "regex" → regexCompileOk (pyStr v) = true)
    (hnr : ∀ mn mx : Val, v ≠ .range mn mx) :
    (∀ q : Rat, pyFloat v = .ok q →
      (apply_filters qs (some ⟨conj, [⟨raw, op, "Number", v⟩]⟩)).map ApplyResult.filtersOut
        = .ok (some ⟨conj, [⟨raw, op, "Number", .num q⟩]⟩))
    ∧ (∀ e, pyFloat v = .error e →
        apply_filters qs (some ⟨conj, [⟨raw, op, "Number", v⟩]⟩) = .error e)
    ∧ (∀ d, pyStrptime v = .ok d →
        (apply_filters qs (some ⟨conj, [⟨raw, op, "Datetime", v⟩]⟩)).map ApplyResult.filtersOut
          = .ok (some ⟨conj, [⟨raw, op, "Datetime", .dt d⟩]⟩))
    ∧ (∀ e, pyStrptime v = .error e →
        apply_filters qs (some ⟨conj, [⟨raw, op, "Datetime", v⟩]⟩) = .error e)
    ∧ (∀ ty, ty = "String" ∨ ty = "Unknown" →
        (apply_filters qs (some ⟨conj, [⟨raw, op, ty, v⟩]⟩)).map ApplyResult.filtersOut
          = .ok (some ⟨conj, [⟨raw, op, ty, v⟩]⟩)) := by
  have hskN : skippedItem ⟨raw, op, "Number", v⟩ = false := by
    unfold skippedItem
    simp [hsw, hv]
  have hskD : skippedItem ⟨raw, op, "Datetime", v⟩ = false := by
    unfold skippedItem
    simp [hsw, hv]
  refine ⟨?_, ?_, ?_, ?_, ?_⟩
  · intro q hq
    have hrwid : stepRewriteItem (onlyUndefinedOf qs) ⟨raw, op, "Number", v⟩
        = ⟨raw, op, "Number", v⟩ := by
      unfold stepRewriteItem
      exact if_neg (fun hcon => hemp hcon.2)
    obtain ⟨st2, hstep⟩ := step_generic_path conj (onlyUndefinedOf qs) ⟨[], none, []⟩
      ⟨raw, op, "Number", v⟩ ⟨raw, op, "Number", .num q⟩ hskN
      (by rw [hrwid]; exact fun hcon => hemp hcon.2)
      (by rw [hrwid]
          intro hcon
          have h9 := hrgx hcon.1
          have h8 : regexCompileOk (pyStr v) = false := hcon.2
          rw [h9] at h8
          cases h8)
      (by rw [hrwid]; exact fun hcon => hin hcon)
      (by rw [hrwid]; exact fun hcon => hnin hcon)
      (by rw [hrwid]; exact fun hcon => hemp hcon)
      (by rw [hrwid, cast_value_scalar_number rfl hnr, hq])
    rw [apply_filters_single_proceed hstep]
    rfl
  · intro e he
    have hrwid : stepRewriteItem (onlyUndefinedOf qs) ⟨raw, op, "Number", v⟩
        = ⟨raw, op, "Number", v⟩ := by
      unfold stepRewriteItem
      exact if_neg (fun hcon => hemp hcon.2)
    refine apply_filters_single_fail (step_generic_path_err conj (onlyUndefinedOf qs)
      ⟨[], none, []⟩ ⟨raw, op, "Number", v⟩ e hskN
      (by rw [hrwid]; exact fun hcon => hemp hcon.2)
      (by rw [hrwid]
          intro hcon
          have h9 := hrgx hcon.1
          have h8 : regexCompileOk (pyStr v) = false := hcon.2
          rw [h9] at h8
          cases h8)
      (by rw [hrwid]; exact fun hcon => hin hcon)
      (by rw [hrwid]; exact fun hcon => hnin hcon)
      (by rw [hrwid]; exact fun hcon => hemp hcon)
      (by rw [hrwid, cast_value_scalar_number rfl hnr, he]))
  · intro d hd
    have hrwid : stepRewriteItem (onlyUndefinedOf qs) ⟨raw, op, "Datetime", v⟩
        = ⟨raw, op, "Datetime", v⟩ := by
      unfold stepRewriteItem
      exact if_neg (fun hcon => hemp hcon.2)
    obtain ⟨st2, hstep⟩ := step_generic_path conj (onlyUndefinedOf qs) ⟨[], none, []⟩
      ⟨raw, op, "Datetime", v⟩ ⟨raw, op, "Datetime", .dt d⟩ hskD
      (by rw [hrwid]; exact fun hcon => hemp hcon.2)
      (by rw [hrwid]
          intro hcon
          have h9 := hrgx hcon.1
          have h8 : regexCompileOk (pyStr v) = false := hcon.2
          rw [h9] at h8
          cases h8)
      (by rw [hrwid]; exact fun hcon => hin hcon)
      (by rw [hrwid]; exact fun hcon => hnin hcon)
      (by rw [hrwid]; exact fun hcon => hemp hcon)
      (by rw [hrwid, cast_value_scalar_datetime rfl hnr, hd])
    rw [apply_filters_single_proceed hstep]
    rfl
  · intro e he
    have hrwid : stepRewriteItem (onlyUndefinedOf qs) ⟨raw, op, "Datetime", v⟩
        = ⟨raw, op, "Datetime", v⟩ := by
      unfold stepRewriteItem
      exact if_neg (fun hcon => hemp hcon.2)
    refine apply_filters_single_fail (step_generic_path_err conj (onlyUndefinedOf qs)
      ⟨[], none, []⟩ ⟨raw, op, "Datetime", v⟩ e hskD
      (by rw [hrwid]; exact fun hcon => hemp hcon.2)
      (by rw [hrwid]
          intro hcon
          have h9 := hrgx hcon.1
          have h8 : regexCompileOk (pyStr v) = false := hcon.2
          rw [h9] at h8
          cases h8)
      (by rw [hrwid]; exact fun hcon => hin hcon)
      (by rw [hrwid]; exact fun hcon => hnin hcon)
      (by rw [hrwid]; exact fun hcon => hemp hcon)
      (by rw [hrwid, cast_value_scalar_datetime rfl hnr, he]))
  · intro ty hty
    have hskT : skippedItem ⟨raw, op, ty, v⟩ = false := by
      unfold skippedItem
      simp [hsw, hv]
    have hrwid : stepRewriteItem (onlyUndefinedOf qs) ⟨raw, op, ty, v⟩
        = ⟨raw, op, ty, v⟩ := by
      unfold stepRewriteItem
      exact if_neg (fun hcon => hemp hcon.2)
    obtain ⟨st2, hstep⟩ := step_generic_path conj (onlyUndefinedOf qs) ⟨[], none, []⟩
      ⟨raw, op, ty, v⟩ ⟨raw, op, ty, v⟩ hskT
      (by rw [hrwid]; exact fun hcon => hemp hcon.2)
      (by rw [hrwid]
          intro hcon
          have h9 := hrgx hcon.1
          have h8 : regexCompileOk (pyStr v) = false := hcon.2
          rw [h9] at h8
          cases h8)
      (by rw [hrwid]; exact fun hcon => hin hcon)
      (by rw [hrwid]; exact fun hcon => hnin hcon)
      (by rw [hrwid]; exact fun hcon => hemp hcon)
      (by rw [hrwid]; exact cast_value_passthrough hty)
    rw [apply_filters_single_proceed hstep]
    rfl

/-- C8 witness: the amended claim at concrete inputs, both the successful
coercions and the propagated parse failures. -/
theorem c8_coercion_witness :
    ((apply_filters [cTask0]
        (some ⟨.AND, [⟨"filter:tasks:score", "equal", "Number", .str "3.5"⟩]⟩)).map
          ApplyResult.filtersOut
      = .ok (some ⟨.AND, [⟨"filter:tasks:score", "equal", "Number", .num (mkRat 7 2)⟩]⟩))
    ∧ apply_filters [cTask0]
        (some ⟨.AND, [⟨"filter:tasks:score", "equal", "Number", .str "abc"⟩]⟩)
      = .error "ValueError: could not convert string to float: abc" :=
  ⟨(c8_coercion_on_generic_path [cTask0] .AND "filter:tasks:score" "equal" (.str "3.5")
      (by decide) (by decide) (by decide) (by decide) (by decide)
      (by intro h; exact absurd h (by decide)) (by intro mn mx h; cases h)).1
      (mkRat 7 2) (by decide),
   (c8_coercion_on_generic_path [cTask0] .AND "filter:tasks:score" "equal" (.str "abc")
      (by decide) (by decide) (by decide) (by decide) (by decide)
      (by intro h; exact absurd h (by decide)) (by intro mn mx h; cases h)).2.1
      "ValueError: could not convert string to float: abc" (by decide)⟩

/-! ### Claim C10 -/

/-- C10: with `all = false` and an empty include list no selection
restriction is applied (the full filtered/ordered set is returned, not the
empty set); symmetrically with `all = true` and an empty exclude list
nothing is excluded: the restriction branches run only on a non-empty id
list. -/
theorem c10_empty_selection_lists_no_restriction
    (qs : List Task) (proj : Option Int) (filt : Option Filters) (ord : List String)
    (inc exc : List Int) :
    TaskQuerySet.prepared qs ⟨proj, filt, ord, some ⟨false, [], exc⟩⟩
        = TaskQuerySet.prepared qs ⟨proj, filt, ord, none⟩ ∧
    TaskQuerySet.prepared qs ⟨proj, filt, ord, some ⟨true, inc, []⟩⟩
        = TaskQuerySet.prepared qs ⟨proj, filt, ord, none⟩ := by
  constructor <;> simp [TaskQuerySet.prepared, selectionRestrict]

/-! ### Claim C5 -/

/-- C5 counterexample: on one task with `selectedItems = {all: false,
included: []}` the code returns the task, while the claim as stated
restricts the result to the (empty) included id set. -/
theorem c5_counterexample :
    ¬ ((TaskQuerySet.prepared [cTask0] ⟨none, none, [], some ⟨false, [], []⟩⟩).map
          ApplyResult.rows = .ok []) := by
  decide

/-- C5 (amended): the selection restriction is applied last, after
filtering and ordering; with `all = false` and a NON-EMPTY include list the
result is the intersection of the prior rows with the included ids; with
`all = true` and a NON-EMPTY exclude list the excluded ids are removed;
with no `selectedItems` (or an empty respective id list, see C10) no
restriction applies. -/
theorem c5_selection_composes (qs : List Task) (pp : PrepareParams) :
    (TaskQuerySet.prepared qs pp
        = (apply_filters (projectScope qs pp.project) pp.filters).bind (fun r =>
            (apply_ordering r.rows pp.ordering).bind (fun rows =>
              .ok { r with rows := selectionRestrict pp.selectedItems rows })))
    ∧ (∀ (s : SelectedItems) (rows : List Task), s.all = false → s.included ≠ [] →
        ∀ t : Task, t ∈ selectionRestrict (some s) rows ↔ t ∈ rows ∧ t.id ∈ s.included)
    ∧ (∀ (s : SelectedItems) (rows : List Task), s.all = true → s.excluded ≠ [] →
        ∀ t : Task, t ∈ selectionRestrict (some s) rows ↔ t ∈ rows ∧ t.id ∉ s.excluded)
    ∧ (∀ rows : List Task, selectionRestrict none rows = rows) := by
  refine ⟨rfl, ?_, ?_, fun rows => rfl⟩
  · intro s rows hall hinc t
    simp [selectionRestrict, hall, hinc, List.mem_filter]
  · intro s rows hall hexc t
    simp [selectionRestrict, hall, hexc, List.mem_filter]

/-- C5 witness: the amended claim applied to a concrete query. -/
theorem c5_selection_composes_witness :
    (TaskQuerySet.prepared [cTask0, cTask1] ⟨none, none, [], some ⟨false, [2], []⟩⟩
        = (apply_filters (projectScope [cTask0, cTask1] none) none).bind (fun r =>
            (apply_ordering r.rows []).bind (fun rows =>
              .ok { r with rows := selectionRestrict (some ⟨false, [2], []⟩) rows })))
    ∧ (cTask1 ∈ selectionRestrict (some ⟨false, [2], []⟩) [cTask0, cTask1]
        ↔ cTask1 ∈ [cTask0, cTask1] ∧ cTask1.id ∈ [(2 : Int)]) :=
  ⟨(c5_selection_composes [cTask0, cTask1] ⟨none, none, [], some ⟨false, [2], []⟩⟩).1,
   (c5_selection_composes [cTask0, cTask1] ⟨none, none, [], some ⟨false, [2], []⟩⟩).2.1
      ⟨false, [2], []⟩ [cTask0, cTask1] rfl (by decide) cTask1⟩

/-! ### Claim C2 -/

/-- C2 counterexample: a filter item of type `String` with operator `empty`
on a counter column is captured by the counter special case (lines 166-169)
before the string special case is reached, so it is rewritten to
`equal 0` and returns a task whose field is neither the empty string, nor
NULL, nor unset — the claimed characterization fails on such items. -/
theorem c2_counterexample :
    (apply_filters [cTask0, cTask1, cTask2]
        (some ⟨.AND, [⟨"filter:tasks:total_annotations", "empty", "String", .str "true"⟩]⟩)).map
          ApplyResult.rows = .ok [cTask0]
    ∧ ¬ specStringEmpty cTask0 "total_annotations" :=
  ⟨by decide, by decide⟩

/-- C2 (corrected): for a `String`- or `Unknown`-typed filter item with
operator `empty` that the loop processes (routing prefix present, truthy
value), whose resolved field name is not one of the three counter columns
and carries no lookup suffix, `apply_filters` adds the disjunctive
emptiness predicate — field equal to the empty string, OR NULL, OR unset —
to the expression whatever the outer conjunction mode is, and the rows that
survive are exactly the members of the queryset satisfying that predicate
when the value coerces to true, and exactly those satisfying its logical
complement when it coerces to false.  On counter columns the claim fails
(see the counterexample). -/
theorem c2_string_empty_semantics (qs : List Task) (conj : ConjunctionEnum)
    (raw ty : String) (v : Val)
    (hskip : skippedItem ⟨raw, "empty", ty, v⟩ = false)
    (hty : ty = "String" ∨ ty = "Unknown")
    (hcnt : ¬ counterFields (stepFieldName (onlyUndefinedOf qs) ⟨raw, "empty", ty, v⟩))
    (hplain : plainColumn (stepFieldName (onlyUndefinedOf qs) ⟨raw, "empty", ty, v⟩) = true) :
    apply_filters qs (some ⟨conj, [⟨raw, "empty", ty, v⟩]⟩)
      = .ok ⟨qs.filter
              (stringEmptyQ [] (stepFieldName (onlyUndefinedOf qs) ⟨raw, "empty", ty, v⟩) v),
             some ⟨conj, [⟨raw, "empty", ty, v⟩]⟩, ["Apply filter"]⟩
    ∧ ∀ t, t ∈ qs.filter
              (stringEmptyQ [] (stepFieldName (onlyUndefinedOf qs) ⟨raw, "empty", ty, v⟩) v)
        ↔ t ∈ qs
          ∧ (if castBoolTruthy v
             then specStringEmpty t (stepFieldName (onlyUndefinedOf qs) ⟨raw, "empty", ty, v⟩)
             else ¬ specStringEmpty t
                (stepFieldName (onlyUndefinedOf qs) ⟨raw, "empty", ty, v⟩)) := by
  have hann : ¬ stepAnnotate (onlyUndefinedOf qs) ⟨raw, "empty", ty, v⟩ := by
    intro hcon
    unfold stepAnnotate at hcon
    rcases hty with h | h
    · rw [h] at hcon
      have h9 : "String" = "Number" := hcon.1
      exact absurd h9 (by decide)
    · rw [h] at hcon
      have h9 : "Unknown" = "Number" := hcon.1
      exact absurd h9 (by decide)
  have hclean : stepCleanFieldName (onlyUndefinedOf qs) ⟨raw, "empty", ty, v⟩
      = stepFieldName (onlyUndefinedOf qs) ⟨raw, "empty", ty, v⟩ := by
    unfold stepCleanFieldName
    rw [if_neg hann]
  obtain ⟨st', hstep, hexpr, hanns, hlogs⟩ :=
    step_string_empty_path conj (onlyUndefinedOf qs) ⟨[], none, []⟩
      ⟨raw, "empty", ty, v⟩ hskip (fun hc => hcnt (hclean ▸ hc.1)) hty rfl
  have happ := apply_filters_single_proceed hstep
  have hexpr2 : st'.expr
      = some (stringEmptyQ [] (stepFieldName (onlyUndefinedOf qs) ⟨raw, "empty", ty, v⟩) v) :=
    hexpr
  refine ⟨?_, ?_⟩
  · rw [happ, hexpr2, hlogs]
    rfl
  · intro t
    rw [List.mem_filter]
    constructor
    · intro ⟨hmem, hp⟩
      exact ⟨hmem, (stringEmptyQ_eval _ v t hplain).mp hp⟩
    · intro ⟨hmem, hp⟩
      exact ⟨hmem, (stringEmptyQ_eval _ v t hplain).mpr hp⟩

/-- C2 witness: the corrected claim applied to a string column `name` over
four tasks whose field is the empty string, NULL, unset, and non-empty;
the value true keeps the first three, the value false (under an OR
conjunction) keeps exactly the complement. -/
theorem c2_string_empty_witness :
    (apply_filters [sTaskEmpty, sTaskNull, sTaskUnset, sTaskX]
        (some ⟨.AND, [⟨"filter:tasks:name", "empty", "String", .str "true"⟩]⟩)
      = .ok ⟨[sTaskEmpty, sTaskNull, sTaskUnset],
             some ⟨.AND, [⟨"filter:tasks:name", "empty", "String", .str "true"⟩]⟩,
             ["Apply filter"]⟩)
    ∧ (apply_filters [sTaskEmpty, sTaskNull, sTaskUnset, sTaskX]
        (some ⟨.OR, [⟨"filter:tasks:name", "empty", "String", .str "false"⟩]⟩)
      = .ok ⟨[sTaskX],
             some ⟨.OR, [⟨"filter:tasks:name", "empty", "String", .str "false"⟩]⟩,
             ["Apply filter"]⟩) := by
  constructor
  · have h := (c2_string_empty_semantics [sTaskEmpty, sTaskNull, sTaskUnset, sTaskX] .AND
      "filter:tasks:name" "String" (.str "true")
      (by decide) (Or.inl rfl) (by decide) (by decide)).1
    rw [h]
    decide
  · have h := (c2_string_empty_semantics [sTaskEmpty, sTaskNull, sTaskUnset, sTaskX] .OR
      "filter:tasks:name" "String" (.str "false")
      (by decide) (Or.inl rfl) (by decide) (by decide)).1
    rw [h]
    decide

/-! ### Claim C6 -/

/-- C6: `apply_ordering` honors only the first ordering key (any further
keys are ignored); for any resolved plan the returned rows are a
permutation of the queryset sorted under the nulls-last comparison of the
chosen direction, so every record whose sort key is NULL — a stored NULL or
a missing nested JSON key alike — comes after all records with a key, in
ascending and descending direction both; and an empty ordering list
defaults to ascending order by the identity column. -/
theorem c6_ordering (qs : List Task) (o : String) (rest : List String) :
    apply_ordering qs (o :: rest) = apply_ordering qs [o]
    ∧ (∀ (asc : Bool) (keyF : Task → Option Val),
        orderingPlan qs o = some (asc, keyF) →
        ∃ rows, apply_ordering qs (o :: rest) = .ok rows
          ∧ rows.Perm qs
          ∧ List.Sorted (fun a b => nullsLastLe asc keyF a b = true) rows
          ∧ List.Pairwise (fun a b => keyF a = none → keyF b = none) rows)
    ∧ ∃ rows0, apply_ordering qs [] = .ok rows0
        ∧ rows0.Perm qs
        ∧ List.Sorted (fun a b : Task => a.id ≤ b.id) rows0 := by
  refine ⟨rfl, ?_, ?_⟩
  · intro asc keyF hplan
    refine ⟨orderBy asc keyF qs, ?_, orderBy_perm asc keyF qs,
      orderBy_sorted asc keyF qs,
      (orderBy_sorted asc keyF qs).imp (fun h ha => nullsLastLe_none_mono h ha)⟩
    dsimp only [apply_ordering]
    rw [hplan]
  · exact ⟨_, rfl, orderBy_perm true _ qs, orderBy_id_sorted qs⟩

/-- C6 witness: ordering three tasks by the nested JSON path `data.value`
(values "b", "a", and a missing key).  The second ordering key is ignored;
ascending yields a-b-missing and descending yields b-a-missing, the
keyless record last both times; the empty ordering yields the id order. -/
theorem c6_ordering_witness :
    (apply_ordering [dTaskB, dTaskA, dTaskNone] ["tasks:data.value", "tasks:id"]
      = apply_ordering [dTaskB, dTaskA, dTaskNone] ["tasks:data.value"])
    ∧ (∃ rows, apply_ordering [dTaskB, dTaskA, dTaskNone] ["-tasks:data.value"] = .ok rows
        ∧ rows.Perm [dTaskB, dTaskA, dTaskNone]
        ∧ List.Pairwise (fun a b =>
            (fun t => (dataKeyText t "value").map Val.str) a = none →
            (fun t => (dataKeyText t "value").map Val.str) b = none) rows)
    ∧ apply_ordering [dTaskB, dTaskA, dTaskNone] ["tasks:data.value"]
        = .ok [dTaskA, dTaskB, dTaskNone]
    ∧ apply_ordering [dTaskB, dTaskA, dTaskNone] ["-tasks:data.value"]
        = .ok [dTaskB, dTaskA, dTaskNone]
    ∧ (∃ rows0, apply_ordering [dTaskB, dTaskA, dTaskNone] [] = .ok rows0
        ∧ rows0.Perm [dTaskB, dTaskA, dTaskNone]
        ∧ List.Sorted (fun a b : Task => a.id ≤ b.id) rows0) := by
  refine ⟨(c6_ordering [dTaskB, dTaskA, dTaskNone] "tasks:data.value" ["tasks:id"]).1,
    ?_, by decide, by decide,
    (c6_ordering [dTaskB, dTaskA, dTaskNone] "tasks:data.value" ["tasks:id"]).2.2⟩
  obtain ⟨rows, h1, h2, -, h4⟩ :=
    (c6_ordering [dTaskB, dTaskA, dTaskNone] "-tasks:data.value" []).2.1 false
      (fun t => (dataKeyText t "value").map Val.str) rfl
  exact ⟨rows, h1, h2, h4⟩

/-! ### Claim C9 -/

/-- C9: the field names handed to the computed-column registry are exactly
the ordering field (if any ordering is given) together with every filter
item field path stripped of its routing prefix, de-duplicated, minus the
native Task model column names and `id`, minus every name starting with
`data.`; on a successful build the registry annotators invoked are exactly
the fields of this set, on top of the three always-annotated counters. -/
theorem c9_annotated_field_set (pp : PrepareParams) :
    (∀ f, f ∈ get_fields_for_annotation pp
      ↔ ((∃ o rest, pp.ordering = o :: rest
            ∧ f = strReplace (strReplace o "tasks:" "") "-" "")
          ∨ (∃ fs it, pp.filters = some fs ∧ it ∈ fs.items
              ∧ f = strReplace it.filter "filter:tasks:" ""))
        ∧ ¬ f ∈ taskModelFieldAttnames ∧ f ≠ "id"
        ∧ strStartsWith f "data." = false)
    ∧ (∀ base q r, PreparedTaskManager.all base (some pp) = .ok (q, r) →
        q.invoked = get_fields_for_annotation pp
        ∧ q.alwaysAnnotated
            = ["total_annotations", "cancelled_annotations", "total_predictions"]) := by
  constructor
  · intro f
    rw [mem_get_fields]
    constructor
    · intro h
      obtain ⟨hin, hsk, hdata⟩ := h
      refine ⟨?_, fun hc => hsk (List.mem_append.mpr (Or.inl hc)),
              fun hc => hsk (List.mem_append.mpr (Or.inr (by simp [hc]))), hdata⟩
      rcases hin with h | h
      · left
        cases hord : pp.ordering with
        | nil =>
          rw [hord] at h
          cases h
        | cons o rest =>
          rw [hord] at h
          simp only [List.mem_singleton] at h
          exact ⟨o, rest, rfl, h⟩
      · right
        cases hfil : pp.filters with
        | none =>
          rw [hfil] at h
          cases h
        | some fs =>
          rw [hfil] at h
          simp only [List.mem_map] at h
          obtain ⟨it, hit, hf⟩ := h
          exact ⟨fs, it, rfl, hit, hf.symm⟩
    · intro h
      obtain ⟨hin, hattr, hid, hdata⟩ := h
      refine ⟨?_, ?_, hdata⟩
      · rcases hin with ⟨o, rest, hord, hf⟩ | ⟨fs, it, hfil, hit, hf⟩
        · left
          rw [hord]
          simp [hf]
        · right
          rw [hfil]
          simp only [List.mem_map]
          exact ⟨it, hit, hf.symm⟩
      · intro hc
        rcases List.mem_append.mp hc with h | h
        · exact hattr h
        · simp only [List.mem_singleton] at h
          exact hid h
  · intro base q r hall
    unfold PreparedTaskManager.all PreparedTaskManager.get_queryset at hall
    dsimp only [Option.getD] at hall
    cases hinv : invokeAnnotators ( get_fields_for_annotation pp) with
    | error e =>
      rw [hinv] at hall
      dsimp only [Except.map, bind, Except.bind] at hall
      cases hall
    | ok inv =>
      rw [hinv] at hall
      dsimp only [Except.map, bind, Except.bind] at hall
      cases hp : TaskQuerySet.prepared base pp with
      | error e =>
        rw [hp] at hall
        dsimp only at hall
        cases hall
      | ok res =>
        rw [hp] at hall
        dsimp only at hall
        cases hall
        exact ⟨invokeAnnotators_ok hinv, rfl⟩

/-- C9 witness: the analysis on a concrete prepare-params value with one
ordering key and two filter items; the JSON path `data.value` is excluded,
`completed_at` and the ordering field `annotators` are annotated, and the
build invokes exactly those two on top of the three counters. -/
theorem c9_annotated_field_set_witness :
    (∃ q r, PreparedTaskManager.all [cTask0] (some pp9c) = .ok (q, r)
      ∧ q.invoked = get_fields_for_annotation pp9c
      ∧ q.alwaysAnnotated
          = ["total_annotations", "cancelled_annotations", "total_predictions"])
    ∧ "completed_at" ∈ get_fields_for_annotation pp9c
    ∧ ¬ "data.value" ∈ get_fields_for_annotation pp9c
    ∧ ¬ "id" ∈ get_fields_for_annotation pp9c
    ∧ get_fields_for_annotation pp9c = ["annotators", "completed_at"] := by
  have hall : PreparedTaskManager.all [cTask0] (some pp9c)
      = .ok (⟨[cTask0],
              ["total_annotations", "cancelled_annotations", "total_predictions"],
              ["annotators", "completed_at"]⟩,
             ⟨[cTask0],
              some ⟨.AND, [⟨"filter:tasks:completed_at", "empty", "Boolean", .str ""⟩,
                           ⟨"filter:tasks:data.value", "contains", "String", .str ""⟩]⟩,
              ["Apply filter"]⟩) := by decide
  refine ⟨⟨_, _, hall, ((c9_annotated_field_set pp9c).2 _ _ _ hall).1,
      ((c9_annotated_field_set pp9c).2 _ _ _ hall).2⟩, ?_, by decide, by decide, by decide⟩
  exact ((c9_annotated_field_set pp9c).1 "completed_at").mpr
    ⟨Or.inr ⟨⟨.AND, [⟨"filter:tasks:completed_at", "empty", "Boolean", .str ""⟩,
                     ⟨"filter:tasks:data.value", "contains", "String", .str ""⟩]⟩,
             ⟨"filter:tasks:completed_at", "empty", "Boolean", .str ""⟩,
             rfl, by decide, by decide⟩,
     by decide, by decide, by decide⟩

end DataManager
